import Mathlib

/-!
Shallow embedding of the PBFT simulator core (`src/core/node.py`, `src/state.py`,
`src/run_node.py`) of the `pBFT_no_fork` repository.

A replica (`PBFTNode` + `PBFTState`) is modelled as a pure state value; every
RPC handler becomes a pure function `PBFTState → request → PBFTState × Ack × List Action`,
where `Action` records the outbound RPCs the handler issues (the Python code
fires them over gRPC and ignores transport failures).  Local recursive handler
invocations (`_multicast_prepare` calling `self.on_prepare`, `on_prepare`
calling `self.on_commit`, `on_commit` calling `self._execute`) are inlined as
function composition, exactly following the call order of the source.
Randomness (`random.choice` / `random.randint` in the Byzantine chaos path) and
the reachability of remote peers (ping / get_status results) are supplied as
explicit oracle parameters.
-/

namespace PBFT

/-! ### Association-list maps

The Python dicts (`state.log`, `state.pending_prepares`, `state.pending_commits`,
`state.conflicting_prepares`) are modelled as association lists. -/

def lookupA {α β : Type} [DecidableEq α] : List (α × β) → α → Option β
  | [], _ => none
  | (k, v) :: rest, a => if k = a then some v else lookupA rest a

def insertA {α β : Type} [DecidableEq α] : List (α × β) → α → β → List (α × β)
  | [], a, b => [(a, b)]
  | (k, v) :: rest, a, b =>
      if k = a then (a, b) :: rest else (k, v) :: insertA rest a b

def eraseA {α β : Type} [DecidableEq α] : List (α × β) → α → List (α × β)
  | [], _ => []
  | (k, v) :: rest, a => if k = a then eraseA rest a else (k, v) :: eraseA rest a

theorem lookupA_insertA_self {α β : Type} [DecidableEq α]
    (l : List (α × β)) (a : α) (b : β) : lookupA (insertA l a b) a = some b := by
  induction l with
  | nil => simp [insertA, lookupA]
  | cons hd tl ih =>
      obtain ⟨k, v⟩ := hd
      by_cases h : k = a <;> simp [insertA, lookupA, h, ih]

theorem lookupA_insertA_ne {α β : Type} [DecidableEq α]
    (l : List (α × β)) (a a' : α) (b : β) (h : a ≠ a') :
    lookupA (insertA l a b) a' = lookupA l a' := by
  induction l with
  | nil => simp [insertA, lookupA, h]
  | cons hd tl ih =>
      obtain ⟨k, v⟩ := hd
      by_cases hk : k = a
      · subst hk
        simp [insertA, lookupA, h]
      · simp [insertA, hk, lookupA, ih]

theorem lookupA_eraseA_self {α β : Type} [DecidableEq α]
    (l : List (α × β)) (a : α) : lookupA (eraseA l a) a = none := by
  induction l with
  | nil => simp [eraseA, lookupA]
  | cons hd tl ih =>
      obtain ⟨k, v⟩ := hd
      by_cases h : k = a <;> simp [eraseA, lookupA, h, ih]

/-! ### Wire messages (`rpc/pbft_pb2`, shapes per spec §6 and their use in the code)

Views, sequence numbers and replica identifiers are carried as non-negative
integers by this system (views start at 0 and only grow, sequence numbers start
at 1, ids are ≥ 1), so they are modelled as `Nat`. -/

structure ClientRequest where
  client_id : String
  request_id : String
  timestamp_ms : Int
  payload : String
  forwarded : Bool
deriving DecidableEq, Repr

structure PrePrepareRequest where
  view : Nat
  seq : Nat
  digest : String
  primary_id : Nat
  request : ClientRequest
deriving DecidableEq, Repr

structure PrepareRequest where
  view : Nat
  seq : Nat
  digest : String
  replica_id : Nat
deriving DecidableEq, Repr

structure CommitRequest where
  view : Nat
  seq : Nat
  digest : String
  replica_id : Nat
deriving DecidableEq, Repr

structure SetViewRequest where
  view : Nat
  sender_id : Nat
  reason : String
deriving DecidableEq, Repr

structure Ack where
  ok : Bool
  error : String
deriving DecidableEq, Repr

structure ClientReply where
  client_id : String
  request_id : String
  replica_id : Nat
  view : Nat
  seq : Nat
  committed : Bool
  result : String
  error : String
deriving DecidableEq, Repr

/-! ### Digest (`PBFTNode._digest`)

The Python code computes the hex SHA-256 of the UTF-8 bytes
`client_id || "|" || request_id || "|" || payload`.  The embedding keeps the
same hashed content but renders it as the hex encoding of the content bytes
themselves rather than of their SHA-256 image: every protocol decision in the
code uses the digest only through (a) string equality, (b) determinism in the
three hashed fields, and (c) the fact that a hex digest consists of hex digits
only, hence never equals a string carrying the Byzantine suffix `:byz`.  All
three are preserved. -/

def hexDigitChar (n : Nat) : Char :=
  if n < 10 then Char.ofNat (48 + n) else Char.ofNat (87 + n)

def natHexChars : Nat → Nat → List Char
  | 0, _ => []
  | k + 1, n => natHexChars k (n / 16) ++ [hexDigitChar (n % 16)]

def hexEncodeChars : List Char → List Char
  | [] => []
  | c :: cs => natHexChars 6 c.toNat ++ hexEncodeChars cs

def digestOf (r : ClientRequest) : String :=
  ⟨hexEncodeChars (r.client_id ++ "|" ++ r.request_id ++ "|" ++ r.payload).data⟩

/-! ### Log entries and replica state (`state.py`) -/

structure PBFTEntry where
  view : Nat
  seq : Nat
  digest : String
  client_id : String
  request_id : String
  payload : String
  prepares : Finset Nat := ∅
  commits : Finset Nat := ∅
  prepared : Bool := false
  committed : Bool := false
  executed : Bool := false
  result : Option String := none
  error : Option String := none
deriving DecidableEq

abbrev EntryKey := Nat × Nat
abbrev PendingKey := Nat × Nat × String

structure PBFTState where
  node_id : Nat
  peers : List Nat
  alive : Bool := true
  byzantine : Bool := false
  view : Nat := 0
  next_seq : Nat := 1
  log : List (EntryKey × PBFTEntry) := []
  pending_prepares : List (PendingKey × Finset Nat) := []
  pending_commits : List (PendingKey × Finset Nat) := []
  conflicting_prepares : List (EntryKey × Finset Nat) := []
deriving DecidableEq

/-- Insertion sort on `Nat`, modelling Python's `sorted`. -/
def insertSorted (x : Nat) : List Nat → List Nat
  | [] => [x]
  | y :: ys => if x ≤ y then x :: y :: ys else y :: insertSorted x ys

def sortNat : List Nat → List Nat
  | [] => []
  | x :: xs => insertSorted x (sortNat xs)

namespace PBFTState

/-- `PBFTState.replica_ids`: `sorted([self.node_id] + list(self.peers))`. -/
def replica_ids (s : PBFTState) : List Nat := sortNat (s.node_id :: s.peers)

/-- `PBFTState.n`. -/
def n (s : PBFTState) : Nat := s.replica_ids.length

/-- `PBFTState.f`: `max(0, (n - 1) // 3)` (`Nat` subtraction already truncates at 0). -/
def f (s : PBFTState) : Nat := (s.n - 1) / 3

/-- `PBFTState.primary_id`: `ids[view % len(ids)]`, falling back to `node_id`
    when `ids` is empty (it never is: `node_id` is always a member). -/
def primary_id (s : PBFTState) : Nat :=
  s.replica_ids.getD (s.view % s.n) s.node_id

/-- `PBFTState.quorum_prepare = 2f`. -/
def quorum_prepare (s : PBFTState) : Nat := 2 * s.f

/-- `PBFTState.quorum_commit = 2f + 1`. -/
def quorum_commit (s : PBFTState) : Nat := 2 * s.f + 1

end PBFTState

/-- Outbound RPCs issued by a handler (sent over gRPC in the source; transport
    failures are swallowed, so only the emission is recorded). -/
inductive Action where
  | sendPrePrepare (peer : Nat) (msg : PrePrepareRequest)
  | sendPrepare (peer : Nat) (msg : PrepareRequest)
  | sendCommit (peer : Nat) (msg : CommitRequest)
  | sendSetView (peer : Nat) (msg : SetViewRequest)
  | pingPrimary (peer : Nat)
deriving DecidableEq, Repr

/-- Entry lookup in the log, for stating theorems. -/
def entryAt (s : PBFTState) (k : EntryKey) : Option PBFTEntry := lookupA s.log k

/-! ### View / failover helpers (`node.py` lines 29-98) -/

/-- `PBFTNode._set_view`: under the lock, `view := new_view` iff `new_view > view`;
    returns whether a change occurred.  The `reason` argument is only logged. -/
def set_view (s : PBFTState) (new_view : Nat) (_reason : String) : PBFTState × Bool :=
  if new_view ≤ s.view then (s, false) else ({ s with view := new_view }, true)

/-- `PBFTNode._broadcast_set_view`: best-effort SET-VIEW to every peer
    (`rpc_clients` holds exactly the peers: `run_node.py` removes `self`). -/
def broadcast_set_view (s : PBFTState) (new_view : Nat) (reason : String) : List Action :=
  s.peers.map (fun pid => Action.sendSetView pid ⟨new_view, s.node_id, reason⟩)

/-- `PBFTNode._sync_view_from_peers`: query each peer's status and adopt the
    maximum observed view.  `statuses pid = some v` models a peer that answered
    `get_status` with view `v`; `none` models a transport failure (skipped). -/
def sync_view_from_peers (s : PBFTState) (statuses : Nat → Option Nat) : PBFTState :=
  let max_view := s.peers.foldl
    (fun mv pid => match statuses pid with
      | some v => if v > mv then v else mv
      | none => mv) s.view
  if max_view > s.view then { s with view := max_view } else s

/-- `PBFTNode._ensure_live_primary` loop body, peeled by remaining hop count.
    `pingOk i` tells whether the ping issued at iteration `i` succeeds.
    When the hop budget is exhausted the Python function returns
    `primary_id == node_id` on the final state. -/
def ensure_live_primary_go (pingOk : Nat → Bool) :
    Nat → Nat → PBFTState → List Action → PBFTState × Bool × List Action
  | 0, _, s, acts => (s, s.primary_id = s.node_id, acts)
  | hops + 1, i, s, acts =>
      let primary_id := s.primary_id
      if primary_id = s.node_id then (s, true, acts)
      else
        let hasClient := s.peers.contains primary_id
        let acts := if hasClient then acts ++ [Action.pingPrimary primary_id] else acts
        if hasClient && pingOk i then (s, true, acts)
        else
          let reason := "failover: primary " ++ toString primary_id ++ " unreachable"
          let bumped_to := s.view + 1
          let res := set_view s bumped_to reason
          let acts := if res.2 then acts ++ broadcast_set_view res.1 bumped_to reason else acts
          ensure_live_primary_go pingOk hops (i + 1) res.1 acts

/-- `PBFTNode._ensure_live_primary(max_hops)`: `hops = max_hops or n`, then
    `max(1, hops)` iterations of the failover loop. -/
def ensure_live_primary (s : PBFTState) (pingOk : Nat → Bool) (max_hops : Option Nat) :
    PBFTState × Bool × List Action :=
  let hops := max_hops.getD s.n
  ensure_live_primary_go pingOk (max 1 hops) 0 s []

/-! ### PBFT helpers (`node.py` lines 100-208) -/

/-- `PBFTNode._maybe_corrupt_digest`: append `:byz` when the node is Byzantine. -/
def maybe_corrupt_digest (byzantine : Bool) (digest : String) : String :=
  if byzantine then digest ++ ":byz" else digest

/-- `PBFTNode._byz_make_chaos_pre_prepare`.  The `random.choice` between the two
    chaos modes and the `random.randint(1, 1_000_000)` payload salt are supplied
    as the explicit `choice` oracle. -/
inductive ChaosChoice where
  | wrongDigest
  | mutatedPayload (rnd : Nat)
deriving DecidableEq, Repr

def byz_make_chaos_pre_prepare (byzantine : Bool) (choice : ChaosChoice)
    (base_req : ClientRequest) (view seq primary_id peer_id : Nat) : PrePrepareRequest :=
  match choice with
  | .wrongDigest =>
      { view := view, seq := seq,
        digest := maybe_corrupt_digest byzantine (digestOf base_req),
        primary_id := primary_id, request := base_req }
  | .mutatedPayload rnd =>
      let mutated_payload :=
        base_req.payload ++ "|BYZ:" ++ toString peer_id ++ ":" ++ toString rnd
      let mutated_req : ClientRequest := { base_req with payload := mutated_payload }
      { view := view, seq := seq, digest := digestOf mutated_req,
        primary_id := primary_id, request := mutated_req }

/-! ### Protocol RPC handlers (`node.py` lines 481-663)

`on_commit` is defined first, then `on_prepare` (which invokes it on the
locally counted COMMIT vote), then `_multicast_prepare` (which invokes
`on_prepare` on the locally counted PREPARE vote), then `on_pre_prepare`. -/

/-- Shared preamble of the three message handlers: if the incoming view is
    higher than the local view, raise the local view to it. -/
def raise_if_higher (s : PBFTState) (v : Nat) (reason : String) : PBFTState :=
  if v > s.view then (set_view s v reason).1 else s

/-- `PBFTNode._execute`: set `result := payload`, `executed := true`,
    `error := ""`, guarded by the `executed` flag (idempotent). -/
def executeEntry (s : PBFTState) (key : EntryKey) : PBFTState :=
  match lookupA s.log key with
  | none => s
  | some e =>
      if e.executed then s
      else
        let e2 := { e with result := some e.payload, executed := true, error := some "" }
        { s with log := insertA s.log key e2 }

/-- Shared guard preamble of the three message handlers: not-alive rejection,
    view raise, wrong-view rejection, then the handler body on the (possibly
    raised) state. -/
def with_guards (s : PBFTState) (v : Nat) (phase : String)
    (body : PBFTState → PBFTState × Ack × List Action) : PBFTState × Ack × List Action :=
  if !s.alive then (s, ⟨false, "node is not alive"⟩, [])
  else
    let s := raise_if_higher s v ("observed higher view in " ++ phase)
    if v ≠ s.view then (s, ⟨false, "wrong view"⟩, [])
    else body s

/-- Body of `PBFTNode.on_commit` after its preamble. -/
def on_commit_body (s : PBFTState) (req : CommitRequest) : PBFTState × Ack × List Action :=
      let key : EntryKey := (req.view, req.seq)
      match lookupA s.log key with
      | none =>
          let pkey : PendingKey := (req.view, req.seq, req.digest)
          let cur := (lookupA s.pending_commits pkey).getD ∅
          (( { s with pending_commits :=
                insertA s.pending_commits pkey (insert req.replica_id cur) }),
           ⟨true, "buffered"⟩, [])
      | some entry =>
          if entry.executed then (s, ⟨true, "ignored (already executed)"⟩, [])
          else if entry.digest ≠ req.digest then (s, ⟨false, "digest mismatch"⟩, [])
          else
            let entry1 := { entry with commits := insert req.replica_id entry.commits }
            let commits_count := entry1.commits.card
            let became_committed :=
              entry1.prepared && !entry1.committed && decide (commits_count ≥ s.quorum_commit)
            let entry2 := if became_committed then { entry1 with committed := true } else entry1
            let s2 := { s with log := insertA s.log key entry2 }
            if became_committed then (executeEntry s2 key, ⟨true, ""⟩, [])
            else (s2, ⟨true, ""⟩, [])

/-- `PBFTNode.on_commit`. -/
def on_commit (s : PBFTState) (req : CommitRequest) : PBFTState × Ack × List Action :=
  with_guards s req.view "COMMIT" (fun s1 => on_commit_body s1 req)

/-- Body of `PBFTNode.on_prepare` after its preamble. -/
def on_prepare_body (s : PBFTState) (req : PrepareRequest) : PBFTState × Ack × List Action :=
      let key : EntryKey := (req.view, req.seq)
      match lookupA s.log key with
      | none =>
          let pkey : PendingKey := (req.view, req.seq, req.digest)
          let cur := (lookupA s.pending_prepares pkey).getD ∅
          (( { s with pending_prepares :=
                insertA s.pending_prepares pkey (insert req.replica_id cur) }),
           ⟨true, "buffered"⟩, [])
      | some entry =>
          if entry.executed then (s, ⟨true, "ignored (already executed)"⟩, [])
          else if entry.digest ≠ req.digest then
            let conflict_set :=
              insert req.replica_id ((lookupA s.conflicting_prepares key).getD ∅)
            let conflicts := conflict_set.card
            let s2 := { s with conflicting_prepares :=
                (insertA s.conflicting_prepares key conflict_set) }
            if conflicts ≥ s.f + 1 then
              let reason := "suspect primary " ++ toString s.primary_id ++
                ": conflicting PREPARE digests for view=" ++ toString req.view ++
                " seq=" ++ toString req.seq
              let bumped_to := s.view + 1
              let res := set_view s2 bumped_to reason
              let acts := if res.2 then broadcast_set_view res.1 bumped_to reason else []
              (res.1, ⟨false, "digest mismatch"⟩, acts)
            else (s2, ⟨false, "digest mismatch"⟩, [])
          else
            let entry1 := { entry with prepares := insert req.replica_id entry.prepares }
            let prepares_count := entry1.prepares.card
            let became_prepared :=
              !entry.prepared && decide (prepares_count ≥ s.quorum_prepare)
            let entry2 := if became_prepared then { entry1 with prepared := true } else entry1
            let s2 := { s with log := insertA s.log key entry2 }
            if became_prepared then
              let commit : CommitRequest :=
                { view := req.view, seq := req.seq,
                  digest := maybe_corrupt_digest s.byzantine req.digest,
                  replica_id := s.node_id }
              let sends := s.peers.map (fun peer => Action.sendCommit peer commit)
              let res := on_commit s2 commit
              (res.1, ⟨true, ""⟩, sends ++ res.2.2)
            else (s2, ⟨true, ""⟩, [])

/-- `PBFTNode.on_prepare`. -/
def on_prepare (s : PBFTState) (req : PrepareRequest) : PBFTState × Ack × List Action :=
  with_guards s req.view "PREPARE" (fun s1 => on_prepare_body s1 req)

/-- `PBFTNode._multicast_prepare`: the primary must not send PREPARE; otherwise
    send a (possibly Byzantine-corrupted) PREPARE to every peer and count the
    own PREPARE vote locally through `on_prepare`. -/
def multicast_prepare (s : PBFTState) (view seq : Nat) (digest : String) :
    PBFTState × List Action :=
  if s.node_id = s.primary_id then (s, [])
  else
    let out_digest := maybe_corrupt_digest s.byzantine digest
    let prepare : PrepareRequest :=
      { view := view, seq := seq, digest := out_digest, replica_id := s.node_id }
    let sends := s.peers.map (fun peer => Action.sendPrepare peer prepare)
    let res := on_prepare s prepare
    (res.1, sends ++ res.2.2)

/-- Body of `PBFTNode.on_pre_prepare` after its preamble (primary-identity
    check, digest check, entry creation, buffer drain, PREPARE multicast). -/
def on_pre_prepare_body (s : PBFTState) (req : PrePrepareRequest)
    (broadcast_prepare : Bool) : PBFTState × Ack × List Action :=
  if req.primary_id ≠ s.primary_id then (s, ⟨false, "wrong primary"⟩, [])
  else
      let digest := digestOf req.request
      if digest ≠ req.digest then
        let reason := "suspect primary " ++ toString s.primary_id ++
          ": PRE-PREPARE digest mismatch"
        let bumped_to := s.view + 1
        let res := set_view s bumped_to reason
        let acts := if res.2 then broadcast_set_view res.1 bumped_to reason else []
        (res.1, ⟨false, "digest mismatch"⟩, acts)
      else
        let key : EntryKey := (req.view, req.seq)
        let pkey : PendingKey := (req.view, req.seq, req.digest)
        let entry :=
          match lookupA s.log key with
          | none =>
              { view := req.view, seq := req.seq, digest := req.digest,
                client_id := req.request.client_id,
                request_id := req.request.request_id,
                payload := req.request.payload : PBFTEntry }
          | some e => e
        let pending_prepares := (lookupA s.pending_prepares pkey).getD ∅
        let pending_commits := (lookupA s.pending_commits pkey).getD ∅
        let entry := { entry with
          prepares := entry.prepares ∪ pending_prepares,
          commits := entry.commits ∪ pending_commits }
        let s2 := { s with
          log := insertA s.log key entry,
          pending_prepares := eraseA s.pending_prepares pkey,
          pending_commits := eraseA s.pending_commits pkey }
        if broadcast_prepare then
          let res := multicast_prepare s2 req.view req.seq req.digest
          (res.1, ⟨true, ""⟩, res.2)
        else (s2, ⟨true, ""⟩, [])

/-- `PBFTNode.on_pre_prepare`. -/
def on_pre_prepare (s : PBFTState) (req : PrePrepareRequest)
    (broadcast_prepare : Bool := true) : PBFTState × Ack × List Action :=
  with_guards s req.view "PRE-PREPARE"
    (fun s1 => on_pre_prepare_body s1 req broadcast_prepare)

/-- `PBFTNode.on_set_view`. -/
def on_set_view (s : PBFTState) (req : SetViewRequest) : PBFTState × Ack × List Action :=
  if !s.alive then (s, ⟨false, "node is not alive"⟩, [])
  else
    let reason := "set by " ++ toString req.sender_id ++ ": " ++ req.reason
    let res := set_view s req.view reason
    (res.1, ⟨true, if res.2 then "" else "ignored (not higher)"⟩, [])

/-- The primary-path branch of `PBFTNode.on_client_request` (`node.py` lines
    213-228 and 295-365): the not-alive early reply, then — given the node is
    the primary — the locked slot allocation, entry creation, and either the
    Byzantine chaos multicast with its immediate non-committing reply, or the
    honest PRE-PREPARE multicast.  The non-primary forwarding branch and the
    post-multicast blocking wait on `entry.done` are transport/concurrency and
    produce no state transition beyond what is modelled here; in the honest
    branch the reply is produced only after that wait, so `none` is returned
    for it.  `chaos` is the per-peer chaos oracle for Byzantine mode. -/
def on_client_request_primary (s : PBFTState) (req : ClientRequest)
    (chaos : Nat → ChaosChoice) : PBFTState × Option ClientReply × List Action :=
  if !s.alive then
    (s, some { client_id := req.client_id, request_id := req.request_id,
               replica_id := s.node_id, view := s.view, seq := 0,
               committed := false, result := "", error := "node is not alive" }, [])
  else
    let view := s.view
    let seq := s.next_seq
    let digest := digestOf req
    let entry : PBFTEntry :=
      { view := view, seq := seq, digest := digest, client_id := req.client_id,
        request_id := req.request_id, payload := req.payload }
    let s2 :=
      { s with next_seq := s.next_seq + 1, log := insertA s.log (view, seq) entry }
    let pre : PrePrepareRequest :=
      { view := view, seq := seq, digest := digest, primary_id := s.node_id,
        request := req }
    if s.byzantine then
      let acts := s.peers.map (fun peer => Action.sendPrePrepare peer
        (byz_make_chaos_pre_prepare s.byzantine (chaos peer) req view seq s.node_id peer))
      (s2, some { client_id := req.client_id, request_id := req.request_id,
                  replica_id := s.node_id, view := view, seq := seq,
                  committed := false, result := "",
                  error := "byzantine primary: sent chaotic PRE-PREPARE (no commit expected)" },
       acts)
    else
      (s2, none, s.peers.map (fun peer => Action.sendPrePrepare peer pre))

/-! ### A unified step relation over the replica's operations

An `Event` is one invocation of an operation on the replica; `step` applies it.
This is the frame over which the cross-operation invariants (view monotonicity,
quorum thresholds) are stated. -/

inductive Event where
  | clientRequest (req : ClientRequest) (chaos : Nat → ChaosChoice)
  | prePrepare (req : PrePrepareRequest) (broadcast : Bool)
  | prepare (req : PrepareRequest)
  | commit (req : CommitRequest)
  | setView (req : SetViewRequest)
  | syncView (statuses : Nat → Option Nat)
  | ensureLivePrimary (pingOk : Nat → Bool) (max_hops : Option Nat)

def step (s : PBFTState) : Event → PBFTState × List Action
  | .clientRequest req chaos =>
      let r := on_client_request_primary s req chaos; (r.1, r.2.2)
  | .prePrepare req b => let r := on_pre_prepare s req b; (r.1, r.2.2)
  | .prepare req => let r := on_prepare s req; (r.1, r.2.2)
  | .commit req => let r := on_commit s req; (r.1, r.2.2)
  | .setView req => let r := on_set_view s req; (r.1, r.2.2)
  | .syncView statuses => (sync_view_from_peers s statuses, [])
  | .ensureLivePrimary pingOk hops =>
      let r := ensure_live_primary s pingOk hops; (r.1, r.2.2)

/-- Run a list of events, keeping only the final state. -/
def runEvents (s : PBFTState) : List Event → PBFTState
  | [] => s
  | e :: es => runEvents (step s e).1 es

/-- How one operation may change a log entry, relative to the quorum thresholds
    `qp = quorum_prepare` and `qc = quorum_commit`: vote sets only grow, and a
    flag may flip to `true` only with the corresponding quorum present (and,
    for `committed`, only with `prepared` holding). -/
def entryEvol (qp qc : Nat) (e0 e1 : PBFTEntry) : Prop :=
  e0.prepares ⊆ e1.prepares ∧ e0.commits ⊆ e1.commits ∧
  (e1.prepared = e0.prepared ∨ (e1.prepared = true ∧ qp ≤ e1.prepares.card)) ∧
  (e1.committed = e0.committed ∨
    (e1.committed = true ∧ e1.prepared = true ∧ qc ≤ e1.commits.card))

/-- Constraint on an entry that was created during the current operation:
    each phase flag is still `false` unless its quorum is present. -/
def entryFresh (qp qc : Nat) (e1 : PBFTEntry) : Prop :=
  (e1.prepared = false ∨ (e1.prepared = true ∧ qp ≤ e1.prepares.card)) ∧
  (e1.committed = false ∨
    (e1.committed = true ∧ e1.prepared = true ∧ qc ≤ e1.commits.card))

/-! ## Basic lemmas -/

theorem set_view_fst (s : PBFTState) (v : Nat) (r : String) :
    (set_view s v r).1 = { s with view := max s.view v } := by
  unfold set_view
  split
  · case isTrue h => rw [Nat.max_eq_left h]
  · case isFalse h => rw [Nat.max_eq_right (Nat.le_of_not_le h)]

theorem set_view_snd (s : PBFTState) (v : Nat) (r : String) :
    (set_view s v r).2 = !decide (v ≤ s.view) := by
  unfold set_view
  split <;> simp_all

theorem raise_if_higher_eq (s : PBFTState) (v : Nat) (r : String) :
    raise_if_higher s v r = { s with view := max s.view v } := by
  unfold raise_if_higher
  split
  · case isTrue h => rw [set_view_fst]
  · case isFalse h => rw [Nat.max_eq_left (Nat.le_of_not_lt h)]

theorem entryEvol_refl (qp qc : Nat) (e : PBFTEntry) : entryEvol qp qc e e := by
  refine ⟨Finset.Subset.refl _, Finset.Subset.refl _, Or.inl rfl, Or.inl rfl⟩

theorem entryEvol_trans {qp qc : Nat} {e0 e1 e2 : PBFTEntry}
    (h1 : entryEvol qp qc e0 e1) (h2 : entryEvol qp qc e1 e2) :
    entryEvol qp qc e0 e2 := by
  obtain ⟨hp1, hc1, hf1, hg1⟩ := h1
  obtain ⟨hp2, hc2, hf2, hg2⟩ := h2
  refine ⟨hp1.trans hp2, hc1.trans hc2, ?_, ?_⟩
  · rcases hf2 with h | h
    · rcases hf1 with h1 | h1
      · exact Or.inl (h.trans h1)
      · exact Or.inr ⟨h.trans h1.1, h1.2.trans (Finset.card_le_card hp2)⟩
    · exact Or.inr h
  · rcases hg2 with h | h
    · rcases hg1 with h1 | h1
      · exact Or.inl (h.trans h1)
      · refine Or.inr ⟨h.trans h1.1, ?_, h1.2.2.trans (Finset.card_le_card hc2)⟩
        rcases hf2 with hf | hf
        · exact hf.trans h1.2.1
        · exact hf.1
    · exact Or.inr h
  -- note the prepared flag needed for the committed clause comes from either
  -- the second step's own flip or transport of the first step's flag

theorem entryFresh_evol {qp qc : Nat} {e1 e2 : PBFTEntry}
    (h1 : entryFresh qp qc e1) (h2 : entryEvol qp qc e1 e2) :
    entryFresh qp qc e2 := by
  obtain ⟨hf1, hg1⟩ := h1
  obtain ⟨hp2, hc2, hf2, hg2⟩ := h2
  constructor
  · rcases hf2 with h | h
    · rcases hf1 with h1 | h1
      · exact Or.inl (h.trans h1)
      · exact Or.inr ⟨h.trans h1.1, h1.2.trans (Finset.card_le_card hp2)⟩
    · exact Or.inr h
  · rcases hg2 with h | h
    · rcases hg1 with h1 | h1
      · exact Or.inl (h.trans h1)
      · refine Or.inr ⟨h.trans h1.1, ?_, h1.2.2.trans (Finset.card_le_card hc2)⟩
        rcases hf2 with hf | hf
        · exact hf.trans h1.2.1
        · exact hf.1
    · exact Or.inr h

theorem with_guards_not_alive (s : PBFTState) (v : Nat) (ph : String)
    (body : PBFTState → PBFTState × Ack × List Action) (hal : s.alive = false) :
    with_guards s v ph body = (s, ⟨false, "node is not alive"⟩, []) := by
  simp [with_guards, hal]

theorem with_guards_stale (s : PBFTState) (v : Nat) (ph : String)
    (body : PBFTState → PBFTState × Ack × List Action)
    (hal : s.alive = true) (hv : v < s.view) :
    with_guards s v ph body = (s, ⟨false, "wrong view"⟩, []) := by
  obtain ⟨nid, prs, al, byz, vw, nsq, lg, pp, pc, cp⟩ := s
  simp only at hal hv
  subst hal
  simp [with_guards, raise_if_higher_eq, Nat.max_eq_left hv.le, Nat.ne_of_lt hv]

theorem with_guards_ok (s : PBFTState) (v : Nat) (ph : String)
    (body : PBFTState → PBFTState × Ack × List Action)
    (hal : s.alive = true) (hv : s.view ≤ v) :
    with_guards s v ph body = body { s with view := v } := by
  obtain ⟨nid, prs, al, byz, vw, nsq, lg, pp, pc, cp⟩ := s
  simp only at hal hv
  subst hal
  simp [with_guards, raise_if_higher_eq, Nat.max_eq_right hv]

theorem with_guards_cases (s : PBFTState) (v : Nat) (ph : String)
    (body : PBFTState → PBFTState × Ack × List Action) :
    with_guards s v ph body = (s, ⟨false, "node is not alive"⟩, []) ∨
    with_guards s v ph body = (s, ⟨false, "wrong view"⟩, []) ∨
    (s.alive = true ∧ s.view ≤ v ∧ with_guards s v ph body = body { s with view := v }) := by
  rcases Bool.eq_false_or_eq_true s.alive with hal | hal
  · rcases Nat.lt_or_ge v s.view with hv | hv
    · exact Or.inr (Or.inl (with_guards_stale s v ph body hal hv))
    · exact Or.inr (Or.inr ⟨hal, hv, with_guards_ok s v ph body hal hv⟩)
  · exact Or.inl (with_guards_not_alive s v ph body hal)

theorem on_commit_body_entry_evol (s : PBFTState) (req : CommitRequest) (k : EntryKey)
    (e1 : PBFTEntry) (h : entryAt (on_commit_body s req).1 k = some e1) :
    (∃ e0, entryAt s k = some e0 ∧ entryEvol s.quorum_prepare s.quorum_commit e0 e1) ∨
    entryFresh s.quorum_prepare s.quorum_commit e1 := by
  rcases heq : lookupA s.log (req.view, req.seq) with _ | entry
  · simp only [on_commit_body, heq, entryAt] at h ⊢
    exact Or.inl ⟨e1, h, entryEvol_refl _ _ _⟩
  · by_cases hex : entry.executed = true
    · simp only [on_commit_body, heq, hex, if_true, entryAt] at h ⊢
      exact Or.inl ⟨e1, h, entryEvol_refl _ _ _⟩
    · by_cases hdig : entry.digest = req.digest
      · simp only [on_commit_body, heq, hex, hdig, ne_eq, not_true_eq_false,
          Bool.false_eq_true, if_false, ite_false, not_false_eq_true, ite_true] at h
        by_cases hb : (entry.prepared && !entry.committed &&
            decide ((insert req.replica_id entry.commits).card ≥ s.quorum_commit)) = true
        · obtain ⟨hbp, hbc⟩ : entry.prepared = true ∧
              s.quorum_commit ≤ (insert req.replica_id entry.commits).card := by
            simp only [Bool.and_eq_true, decide_eq_true_eq] at hb
            exact ⟨hb.1.1, hb.2⟩
          simp only [hb, if_true, executeEntry, lookupA_insertA_self, hex,
            Bool.false_eq_true, if_false, ite_false, ite_true] at h
          by_cases hk : (req.view, req.seq) = k
          · rw [← hk] at h ⊢
            rw [entryAt, lookupA_insertA_self, Option.some_inj] at h
            subst h
            refine Or.inl ⟨entry, heq, Finset.Subset.refl _,
              Finset.subset_insert _ _, Or.inl rfl, Or.inr ⟨rfl, hbp, hbc⟩⟩
          · rw [entryAt, lookupA_insertA_ne _ _ _ _ hk, lookupA_insertA_ne _ _ _ _ hk] at h
            exact Or.inl ⟨e1, h, entryEvol_refl _ _ _⟩
        · simp only [hb, if_false, ite_false, Bool.false_eq_true] at h
          by_cases hk : (req.view, req.seq) = k
          · rw [← hk] at h ⊢
            rw [entryAt, lookupA_insertA_self, Option.some_inj] at h
            subst h
            exact Or.inl ⟨entry, heq, Finset.Subset.refl _,
              Finset.subset_insert _ _, Or.inl rfl, Or.inl rfl⟩
          · rw [entryAt, lookupA_insertA_ne _ _ _ _ hk] at h
            exact Or.inl ⟨e1, h, entryEvol_refl _ _ _⟩
      · simp only [on_commit_body, heq, hex, hdig, ne_eq, not_false_eq_true, if_true,
          Bool.false_eq_true, if_false, ite_true, ite_false, entryAt] at h ⊢
        exact Or.inl ⟨e1, h, entryEvol_refl _ _ _⟩

theorem on_commit_entry_evol (s : PBFTState) (req : CommitRequest) (k : EntryKey)
    (e1 : PBFTEntry) (h : entryAt (on_commit s req).1 k = some e1) :
    (∃ e0, entryAt s k = some e0 ∧ entryEvol s.quorum_prepare s.quorum_commit e0 e1) ∨
    entryFresh s.quorum_prepare s.quorum_commit e1 := by
  simp only [on_commit] at h
  rcases with_guards_cases s req.view "COMMIT" (fun s1 => on_commit_body s1 req) with
    hc | hc | ⟨hal, hv, hc⟩ <;> rw [hc] at h
  · exact Or.inl ⟨e1, h, entryEvol_refl _ _ _⟩
  · exact Or.inl ⟨e1, h, entryEvol_refl _ _ _⟩
  · exact on_commit_body_entry_evol { s with view := req.view } req k e1 h

theorem set_view_fst_log (s : PBFTState) (v : Nat) (r : String) :
    (set_view s v r).1.log = s.log := by
  rw [set_view_fst]

theorem on_prepare_body_entry_evol (s : PBFTState) (req : PrepareRequest) (k : EntryKey)
    (e1 : PBFTEntry) (h : entryAt (on_prepare_body s req).1 k = some e1) :
    (∃ e0, entryAt s k = some e0 ∧ entryEvol s.quorum_prepare s.quorum_commit e0 e1) ∨
    entryFresh s.quorum_prepare s.quorum_commit e1 := by
  rcases heq : lookupA s.log (req.view, req.seq) with _ | entry
  · simp only [on_prepare_body, heq, entryAt] at h ⊢
    exact Or.inl ⟨e1, h, entryEvol_refl _ _ _⟩
  · by_cases hex : entry.executed = true
    · simp only [on_prepare_body, heq, hex, if_true, entryAt] at h ⊢
      exact Or.inl ⟨e1, h, entryEvol_refl _ _ _⟩
    · by_cases hdig : entry.digest = req.digest
      · simp only [on_prepare_body, heq, hex, hdig, ne_eq, not_true_eq_false,
          Bool.false_eq_true, if_false, ite_false, not_false_eq_true, ite_true] at h
        by_cases hb : (!entry.prepared &&
            decide ((insert req.replica_id entry.prepares).card ≥ s.quorum_prepare)) = true
        · obtain ⟨hbp, hbq⟩ : entry.prepared = false ∧
              s.quorum_prepare ≤ (insert req.replica_id entry.prepares).card := by
            simp only [Bool.and_eq_true, Bool.not_eq_true', decide_eq_true_eq] at hb
            exact ⟨hb.1, hb.2⟩
          simp only [hb, if_true, ite_true] at h
          rcases on_commit_entry_evol _ _ k e1 h with ⟨emid, hmid, hevol2⟩ | hfresh
          · by_cases hk : (req.view, req.seq) = k
            · have hevol2a : entryEvol s.quorum_prepare s.quorum_commit emid e1 := hevol2
              rw [← hk] at hmid ⊢
              rw [entryAt, lookupA_insertA_self, Option.some_inj] at hmid
              subst hmid
              refine Or.inl ⟨entry, heq, entryEvol_trans ?_ hevol2a⟩
              exact ⟨Finset.subset_insert _ _, Finset.Subset.refl _,
                Or.inr ⟨rfl, hbq⟩, Or.inl rfl⟩
            · rw [entryAt, lookupA_insertA_ne _ _ _ _ hk] at hmid
              have hevol2a : entryEvol s.quorum_prepare s.quorum_commit emid e1 := hevol2
              exact Or.inl ⟨emid, hmid, hevol2a⟩
          · exact Or.inr hfresh
        · simp only [hb, if_false, ite_false, Bool.false_eq_true] at h
          by_cases hk : (req.view, req.seq) = k
          · rw [← hk] at h ⊢
            rw [entryAt, lookupA_insertA_self, Option.some_inj] at h
            subst h
            exact Or.inl ⟨entry, heq, Finset.subset_insert _ _, Finset.Subset.refl _,
              Or.inl rfl, Or.inl rfl⟩
          · rw [entryAt, lookupA_insertA_ne _ _ _ _ hk] at h
            exact Or.inl ⟨e1, h, entryEvol_refl _ _ _⟩
      · simp only [on_prepare_body, heq, hex, hdig, ne_eq, not_false_eq_true, if_true,
          Bool.false_eq_true, if_false, ite_true, ite_false] at h
        by_cases hc : (insert req.replica_id
            ((lookupA s.conflicting_prepares (req.view, req.seq)).getD ∅)).card ≥ s.f + 1
        · simp only [hc, if_true, ite_true, set_view_fst] at h
          exact Or.inl ⟨e1, h, entryEvol_refl _ _ _⟩
        · simp only [hc, if_false, ite_false] at h
          exact Or.inl ⟨e1, h, entryEvol_refl _ _ _⟩

theorem on_prepare_entry_evol (s : PBFTState) (req : PrepareRequest) (k : EntryKey)
    (e1 : PBFTEntry) (h : entryAt (on_prepare s req).1 k = some e1) :
    (∃ e0, entryAt s k = some e0 ∧ entryEvol s.quorum_prepare s.quorum_commit e0 e1) ∨
    entryFresh s.quorum_prepare s.quorum_commit e1 := by
  simp only [on_prepare] at h
  rcases with_guards_cases s req.view "PREPARE" (fun s1 => on_prepare_body s1 req) with
    hc | hc | ⟨hal, hv, hc⟩ <;> rw [hc] at h
  · exact Or.inl ⟨e1, h, entryEvol_refl _ _ _⟩
  · exact Or.inl ⟨e1, h, entryEvol_refl _ _ _⟩
  · exact on_prepare_body_entry_evol { s with view := req.view } req k e1 h

theorem multicast_prepare_entry_evol (s : PBFTState) (view seq : Nat) (digest : String)
    (k : EntryKey) (e1 : PBFTEntry)
    (h : entryAt (multicast_prepare s view seq digest).1 k = some e1) :
    (∃ e0, entryAt s k = some e0 ∧ entryEvol s.quorum_prepare s.quorum_commit e0 e1) ∨
    entryFresh s.quorum_prepare s.quorum_commit e1 := by
  by_cases hp : s.node_id = s.primary_id
  · simp only [multicast_prepare, hp, if_true, ite_true] at h
    exact Or.inl ⟨e1, h, entryEvol_refl _ _ _⟩
  · simp only [multicast_prepare, hp, if_false, ite_false] at h
    exact on_prepare_entry_evol _ _ k e1 h

theorem on_pre_prepare_body_entry_evol (s : PBFTState) (req : PrePrepareRequest)
    (b : Bool) (k : EntryKey) (e1 : PBFTEntry)
    (h : entryAt (on_pre_prepare_body s req b).1 k = some e1) :
    (∃ e0, entryAt s k = some e0 ∧ entryEvol s.quorum_prepare s.quorum_commit e0 e1) ∨
    entryFresh s.quorum_prepare s.quorum_commit e1 := by
  by_cases hp : req.primary_id = s.primary_id
  swap
  · simp only [on_pre_prepare_body, hp, ne_eq, not_false_eq_true, if_true, ite_true] at h
    exact Or.inl ⟨e1, h, entryEvol_refl _ _ _⟩
  · by_cases hd : digestOf req.request = req.digest
    swap
    · simp only [on_pre_prepare_body, hp, hd, ne_eq, not_true_eq_false, if_false,
        not_false_eq_true, if_true, ite_true, ite_false, set_view_fst] at h
      exact Or.inl ⟨e1, h, entryEvol_refl _ _ _⟩
    · rcases heq : lookupA s.log (req.view, req.seq) with _ | entry
      · -- entry created fresh, then drained and possibly multicast
        simp only [on_pre_prepare_body, hp, hd, ne_eq, not_true_eq_false, if_false,
          ite_false, heq] at h
        have hfresh0 : ∀ st : PBFTState, ∀ pp pc : Finset Nat,
            entryFresh st.quorum_prepare st.quorum_commit
              { view := req.view, seq := req.seq, digest := req.digest,
                client_id := req.request.client_id, request_id := req.request.request_id,
                payload := req.request.payload, prepares := ∅ ∪ pp, commits := ∅ ∪ pc,
                prepared := false, committed := false, executed := false,
                result := none, error := none } := by
          intro st pp pc
          exact ⟨Or.inl rfl, Or.inl rfl⟩
        cases b with
        | false =>
            simp only [Bool.false_eq_true, if_false, ite_false] at h
            by_cases hk : ((req.view : Nat), (req.seq : Nat)) = k
            · rw [← hk] at h
              rw [entryAt, lookupA_insertA_self, Option.some_inj] at h
              subst h
              exact Or.inr (hfresh0 s _ _)
            · rw [entryAt, lookupA_insertA_ne _ _ _ _ hk] at h
              exact Or.inl ⟨e1, h, entryEvol_refl _ _ _⟩
        | true =>
            simp only [if_true, ite_true] at h
            rcases multicast_prepare_entry_evol _ _ _ _ k e1 h with ⟨emid, hmid, hevol2⟩ | hfresh
            · have hevol2a : entryEvol s.quorum_prepare s.quorum_commit emid e1 := hevol2
              by_cases hk : ((req.view : Nat), (req.seq : Nat)) = k
              · rw [← hk] at hmid
                rw [entryAt, lookupA_insertA_self, Option.some_inj] at hmid
                subst hmid
                exact Or.inr (entryFresh_evol (hfresh0 s _ _) hevol2a)
              · rw [entryAt, lookupA_insertA_ne _ _ _ _ hk] at hmid
                exact Or.inl ⟨emid, hmid, hevol2a⟩
            · exact Or.inr hfresh
      · -- entry already present: votes drained in, flags untouched, then multicast
        simp only [on_pre_prepare_body, hp, hd, ne_eq, not_true_eq_false, if_false,
          ite_false, heq] at h
        cases b with
        | false =>
            simp only [Bool.false_eq_true, if_false, ite_false] at h
            by_cases hk : ((req.view : Nat), (req.seq : Nat)) = k
            · rw [← hk] at h ⊢
              rw [entryAt, lookupA_insertA_self, Option.some_inj] at h
              subst h
              exact Or.inl ⟨entry, heq, Finset.subset_union_left,
                Finset.subset_union_left, Or.inl rfl, Or.inl rfl⟩
            · rw [entryAt, lookupA_insertA_ne _ _ _ _ hk] at h
              exact Or.inl ⟨e1, h, entryEvol_refl _ _ _⟩
        | true =>
            simp only [if_true, ite_true] at h
            rcases multicast_prepare_entry_evol _ _ _ _ k e1 h with ⟨emid, hmid, hevol2⟩ | hfresh
            · have hevol2a : entryEvol s.quorum_prepare s.quorum_commit emid e1 := hevol2
              by_cases hk : ((req.view : Nat), (req.seq : Nat)) = k
              · rw [← hk] at hmid ⊢
                rw [entryAt, lookupA_insertA_self, Option.some_inj] at hmid
                subst hmid
                refine Or.inl ⟨entry, heq, entryEvol_trans ?_ hevol2a⟩
                exact ⟨Finset.subset_union_left, Finset.subset_union_left,
                  Or.inl rfl, Or.inl rfl⟩
              · rw [entryAt, lookupA_insertA_ne _ _ _ _ hk] at hmid
                exact Or.inl ⟨emid, hmid, hevol2a⟩
            · exact Or.inr hfresh

theorem on_pre_prepare_entry_evol (s : PBFTState) (req : PrePrepareRequest) (b : Bool)
    (k : EntryKey) (e1 : PBFTEntry) (h : entryAt (on_pre_prepare s req b).1 k = some e1) :
    (∃ e0, entryAt s k = some e0 ∧ entryEvol s.quorum_prepare s.quorum_commit e0 e1) ∨
    entryFresh s.quorum_prepare s.quorum_commit e1 := by
  simp only [on_pre_prepare] at h
  rcases with_guards_cases s req.view "PRE-PREPARE"
      (fun s1 => on_pre_prepare_body s1 req b) with hc | hc | ⟨hal, hv, hc⟩ <;> rw [hc] at h
  · exact Or.inl ⟨e1, h, entryEvol_refl _ _ _⟩
  · exact Or.inl ⟨e1, h, entryEvol_refl _ _ _⟩
  · exact on_pre_prepare_body_entry_evol { s with view := req.view } req b k e1 h

theorem on_client_request_primary_entry_evol (s : PBFTState) (req : ClientRequest)
    (chaos : Nat → ChaosChoice) (k : EntryKey) (e1 : PBFTEntry)
    (h : entryAt (on_client_request_primary s req chaos).1 k = some e1) :
    (∃ e0, entryAt s k = some e0 ∧ entryEvol s.quorum_prepare s.quorum_commit e0 e1) ∨
    entryFresh s.quorum_prepare s.quorum_commit e1 := by
  rcases Bool.eq_false_or_eq_true s.alive with hal | hal
  · rcases Bool.eq_false_or_eq_true s.byzantine with hbz | hbz <;>
      [simp only [on_client_request_primary, entryAt, hal, hbz, Bool.not_true,
        Bool.false_eq_true, if_false, ite_false, if_true, ite_true] at h;
       simp only [on_client_request_primary, entryAt, hal, hbz, Bool.not_true,
        Bool.false_eq_true, if_false, ite_false, if_true, ite_true] at h] <;>
      by_cases hk : ((s.view : Nat), (s.next_seq : Nat)) = k
    · rw [← hk] at h
      rw [lookupA_insertA_self, Option.some_inj] at h
      subst h
      exact Or.inr ⟨Or.inl rfl, Or.inl rfl⟩
    · rw [lookupA_insertA_ne _ _ _ _ hk] at h
      exact Or.inl ⟨e1, h, entryEvol_refl _ _ _⟩
    · rw [← hk] at h
      rw [lookupA_insertA_self, Option.some_inj] at h
      subst h
      exact Or.inr ⟨Or.inl rfl, Or.inl rfl⟩
    · rw [lookupA_insertA_ne _ _ _ _ hk] at h
      exact Or.inl ⟨e1, h, entryEvol_refl _ _ _⟩
  · simp only [on_client_request_primary, hal, Bool.not_false, if_true, ite_true] at h
    exact Or.inl ⟨e1, h, entryEvol_refl _ _ _⟩

theorem on_set_view_log (s : PBFTState) (req : SetViewRequest) :
    (on_set_view s req).1.log = s.log := by
  unfold on_set_view
  split
  · rfl
  · simp only [set_view_fst]

theorem sync_view_from_peers_log (s : PBFTState) (st : Nat → Option Nat) :
    (sync_view_from_peers s st).log = s.log := by
  simp only [sync_view_from_peers]
  split <;> rfl

theorem ensure_live_primary_go_log (p : Nat → Bool) :
    ∀ (hops i : Nat) (s : PBFTState) (acts : List Action),
      (ensure_live_primary_go p hops i s acts).1.log = s.log := by
  intro hops
  induction hops with
  | zero => intro i s acts; rfl
  | succ m ih =>
      intro i s acts
      simp only [ensure_live_primary_go]
      split
      · rfl
      · split
        · rfl
        · rw [ih, set_view_fst]

theorem ensure_live_primary_log (s : PBFTState) (p : Nat → Bool) (mh : Option Nat) :
    (ensure_live_primary s p mh).1.log = s.log := by
  unfold ensure_live_primary
  exact ensure_live_primary_go_log p _ 0 s []

theorem entry_evol_of_log_eq {s post : PBFTState} (hlog : post.log = s.log)
    (k : EntryKey) (e1 : PBFTEntry) (h : entryAt post k = some e1) :
    (∃ e0, entryAt s k = some e0 ∧ entryEvol s.quorum_prepare s.quorum_commit e0 e1) ∨
    entryFresh s.quorum_prepare s.quorum_commit e1 := by
  rw [entryAt, hlog] at h
  exact Or.inl ⟨e1, h, entryEvol_refl _ _ _⟩

theorem step_entry_evol (s : PBFTState) (ev : Event) (k : EntryKey) (e1 : PBFTEntry)
    (h : entryAt (step s ev).1 k = some e1) :
    (∃ e0, entryAt s k = some e0 ∧ entryEvol s.quorum_prepare s.quorum_commit e0 e1) ∨
    entryFresh s.quorum_prepare s.quorum_commit e1 := by
  cases ev with
  | clientRequest req chaos => exact on_client_request_primary_entry_evol s req chaos k e1 h
  | prePrepare req b => exact on_pre_prepare_entry_evol s req b k e1 h
  | prepare req => exact on_prepare_entry_evol s req k e1 h
  | commit req => exact on_commit_entry_evol s req k e1 h
  | setView req => exact entry_evol_of_log_eq (on_set_view_log s req) k e1 h
  | syncView st => exact entry_evol_of_log_eq (sync_view_from_peers_log s st) k e1 h
  | ensureLivePrimary p mh => exact entry_evol_of_log_eq (ensure_live_primary_log s p mh) k e1 h

theorem executeEntry_view (s : PBFTState) (k : EntryKey) :
    (executeEntry s k).view = s.view := by
  unfold executeEntry
  cases hq : lookupA s.log k
  · rfl
  · simp only []
    split <;> rfl

theorem on_commit_body_view (s : PBFTState) (req : CommitRequest) :
    (on_commit_body s req).1.view = s.view := by
  rcases heq : lookupA s.log (req.view, req.seq) with _ | entry
  · simp only [on_commit_body, heq]
  · by_cases hex : entry.executed = true
    · simp only [on_commit_body, heq, hex, if_true, ite_true]
    · by_cases hdig : entry.digest = req.digest
      · simp only [on_commit_body, heq, hex, hdig, ne_eq, not_true_eq_false,
          Bool.false_eq_true, if_false, ite_false, not_false_eq_true, ite_true]
        split
        · rw [executeEntry_view]
        · rfl
      · simp only [on_commit_body, heq, hex, hdig, ne_eq, not_false_eq_true, if_true,
          Bool.false_eq_true, if_false, ite_true, ite_false]

theorem on_commit_view_mono (s : PBFTState) (req : CommitRequest) :
    s.view ≤ (on_commit s req).1.view := by
  simp only [on_commit]
  rcases with_guards_cases s req.view "COMMIT" (fun s1 => on_commit_body s1 req) with
    hc | hc | ⟨hal, hv, hc⟩ <;> rw [hc]
  rw [on_commit_body_view]
  exact hv

theorem on_commit_view_mono' (m : Nat) (s : PBFTState) (req : CommitRequest)
    (hm : m ≤ s.view) : m ≤ (on_commit s req).1.view :=
  hm.trans (on_commit_view_mono s req)

theorem on_prepare_body_view_mono (s : PBFTState) (req : PrepareRequest) :
    s.view ≤ (on_prepare_body s req).1.view := by
  rcases heq : lookupA s.log (req.view, req.seq) with _ | entry
  · simp only [on_prepare_body, heq]
    exact Nat.le_refl _
  · by_cases hex : entry.executed = true
    · simp only [on_prepare_body, heq, hex, if_true, ite_true]
      exact Nat.le_refl _
    · by_cases hdig : entry.digest = req.digest
      · simp only [on_prepare_body, heq, hex, hdig, ne_eq, not_true_eq_false,
          Bool.false_eq_true, if_false, ite_false, not_false_eq_true, ite_true]
        by_cases hb : (!entry.prepared &&
            decide ((insert req.replica_id entry.prepares).card ≥ s.quorum_prepare)) = true
        · simp only [hb, if_true, ite_true]
          exact on_commit_view_mono' s.view _ _ (Nat.le_refl _)
        · simp only [hb, if_false, ite_false, Bool.false_eq_true]
          exact Nat.le_refl _
      · simp only [on_prepare_body, heq, hex, hdig, ne_eq, not_false_eq_true, if_true,
          Bool.false_eq_true, if_false, ite_true, ite_false]
        by_cases hc : (insert req.replica_id
            ((lookupA s.conflicting_prepares (req.view, req.seq)).getD ∅)).card ≥ s.f + 1
        · simp only [hc, if_true, ite_true, set_view_fst]
          exact Nat.le_max_left _ _
        · simp only [hc, if_false, ite_false]
          exact Nat.le_refl _

theorem on_prepare_view_mono (s : PBFTState) (req : PrepareRequest) :
    s.view ≤ (on_prepare s req).1.view := by
  simp only [on_prepare]
  rcases with_guards_cases s req.view "PREPARE" (fun s1 => on_prepare_body s1 req) with
    hc | hc | ⟨hal, hv, hc⟩ <;> rw [hc]
  exact hv.trans (on_prepare_body_view_mono { s with view := req.view } req)

theorem on_prepare_view_mono' (m : Nat) (s : PBFTState) (req : PrepareRequest)
    (hm : m ≤ s.view) : m ≤ (on_prepare s req).1.view :=
  hm.trans (on_prepare_view_mono s req)

theorem multicast_prepare_view_mono (s : PBFTState) (view seq : Nat) (digest : String) :
    s.view ≤ (multicast_prepare s view seq digest).1.view := by
  by_cases hp : s.node_id = s.primary_id
  · simp only [multicast_prepare, hp, if_true, ite_true]
    exact Nat.le_refl _
  · simp only [multicast_prepare, hp, if_false, ite_false]
    exact on_prepare_view_mono' s.view _ _ (Nat.le_refl _)

theorem multicast_prepare_view_mono' (m : Nat) (s : PBFTState) (view seq : Nat)
    (digest : String) (hm : m ≤ s.view) :
    m ≤ (multicast_prepare s view seq digest).1.view :=
  hm.trans (multicast_prepare_view_mono s view seq digest)

theorem on_pre_prepare_body_view_mono (s : PBFTState) (req : PrePrepareRequest) (b : Bool) :
    s.view ≤ (on_pre_prepare_body s req b).1.view := by
  by_cases hp : req.primary_id = s.primary_id
  swap
  · simp only [on_pre_prepare_body, hp, ne_eq, not_false_eq_true, if_true, ite_true]
    exact Nat.le_refl _
  · by_cases hd : digestOf req.request = req.digest
    swap
    · simp only [on_pre_prepare_body, hp, hd, ne_eq, not_true_eq_false, if_false,
        not_false_eq_true, if_true, ite_true, ite_false, set_view_fst]
      exact Nat.le_max_left _ _
    · rcases heq : lookupA s.log (req.view, req.seq) with _ | entry <;>
        simp only [on_pre_prepare_body, hp, hd, ne_eq, not_true_eq_false, if_false,
          ite_false, heq] <;>
        cases b
      · simp only [Bool.false_eq_true, if_false, ite_false]
        exact Nat.le_refl _
      · simp only [if_true, ite_true]
        exact multicast_prepare_view_mono' s.view _ _ _ _ (Nat.le_refl _)
      · simp only [Bool.false_eq_true, if_false, ite_false]
        exact Nat.le_refl _
      · simp only [if_true, ite_true]
        exact multicast_prepare_view_mono' s.view _ _ _ _ (Nat.le_refl _)

theorem on_pre_prepare_view_mono (s : PBFTState) (req : PrePrepareRequest) (b : Bool) :
    s.view ≤ (on_pre_prepare s req b).1.view := by
  simp only [on_pre_prepare]
  rcases with_guards_cases s req.view "PRE-PREPARE"
      (fun s1 => on_pre_prepare_body s1 req b) with hc | hc | ⟨hal, hv, hc⟩ <;> rw [hc]
  exact hv.trans (on_pre_prepare_body_view_mono { s with view := req.view } req b)

theorem on_set_view_view_mono (s : PBFTState) (req : SetViewRequest) :
    s.view ≤ (on_set_view s req).1.view := by
  unfold on_set_view
  split
  · exact Nat.le_refl _
  · simp only [set_view_fst]
    exact Nat.le_max_left _ _

theorem on_client_request_primary_view (s : PBFTState) (req : ClientRequest)
    (chaos : Nat → ChaosChoice) :
    (on_client_request_primary s req chaos).1.view = s.view := by
  unfold on_client_request_primary
  split
  · rfl
  · split <;> rfl

theorem sync_view_from_peers_view_mono (s : PBFTState) (st : Nat → Option Nat) :
    s.view ≤ (sync_view_from_peers s st).view := by
  simp only [sync_view_from_peers]
  split
  · case isTrue h => exact (Nat.le_of_lt h)
  · exact Nat.le_refl _

theorem ensure_live_primary_go_view_mono (p : Nat → Bool) :
    ∀ (hops i : Nat) (s : PBFTState) (acts : List Action),
      s.view ≤ (ensure_live_primary_go p hops i s acts).1.view := by
  intro hops
  induction hops with
  | zero => intro i s acts; exact Nat.le_refl _
  | succ m ih =>
      intro i s acts
      simp only [ensure_live_primary_go]
      split
      · exact Nat.le_refl _
      · split
        · exact Nat.le_refl _
        · refine Nat.le_trans ?_ (ih (i + 1) _ _)
          rw [set_view_fst]
          exact Nat.le_max_left _ _

theorem ensure_live_primary_view_mono (s : PBFTState) (p : Nat → Bool) (mh : Option Nat) :
    s.view ≤ (ensure_live_primary s p mh).1.view := by
  unfold ensure_live_primary
  exact ensure_live_primary_go_view_mono p _ 0 s []

theorem step_view_mono (s : PBFTState) (ev : Event) : s.view ≤ (step s ev).1.view := by
  cases ev with
  | clientRequest req chaos =>
      rw [step, on_client_request_primary_view]
  | prePrepare req b => exact on_pre_prepare_view_mono s req b
  | prepare req => exact on_prepare_view_mono s req
  | commit req => exact on_commit_view_mono s req
  | setView req => exact on_set_view_view_mono s req
  | syncView st => exact sync_view_from_peers_view_mono s st
  | ensureLivePrimary p mh => exact ensure_live_primary_view_mono s p mh

theorem runEvents_view_mono : ∀ (evs : List Event) (s : PBFTState),
    s.view ≤ (runEvents s evs).view := by
  intro evs
  induction evs with
  | nil => intro s; exact Nat.le_refl _
  | cons e es ih =>
      intro s
      exact (step_view_mono s e).trans (ih (step s e).1)

/-! ## Claim theorems -/

/-- C3: Invariant preserved by every operation: whenever an entry's `prepared`
    flag flips from `false` to `true`, the entry's `prepares` set holds at least
    `quorum_prepare = 2f` distinct replica IDs; whenever the `committed` flag
    flips from `false` to `true`, `prepared` already holds and the `commits` set
    holds at least `quorum_commit = 2f + 1` distinct replica IDs.  Stated over
    one arbitrary `step` (any of the seven operations) from an arbitrary state:
    absence of the flag before, presence after, forces the quorum bound (and,
    for `committed`, the `prepared` flag) on the resulting entry. -/
theorem C3_quorum_thresholds_at_flip (s : PBFTState) (ev : Event) (k : EntryKey)
    (e1 : PBFTEntry) (hpost : entryAt (step s ev).1 k = some e1) :
    ((∀ e0, entryAt s k = some e0 → e0.prepared = false) → e1.prepared = true →
      s.quorum_prepare ≤ e1.prepares.card) ∧
    ((∀ e0, entryAt s k = some e0 → e0.committed = false) → e1.committed = true →
      e1.prepared = true ∧ s.quorum_commit ≤ e1.commits.card) := by
  rcases step_entry_evol s ev k e1 hpost with ⟨e0, he0, hp, hc, hf, hg⟩ | ⟨hf, hg⟩
  · constructor
    · intro hpre hflip
      rcases hf with h | h
      · rw [hflip, hpre e0 he0] at h
        exact absurd h (by simp)
      · exact h.2
    · intro hprec hflip
      rcases hg with h | h
      · rw [hflip, hprec e0 he0] at h
        exact absurd h (by simp)
      · exact ⟨h.2.1, h.2.2⟩
  · constructor
    · intro _ hflip
      rcases hf with h | h
      · rw [hflip] at h
        exact absurd h (by simp)
      · exact h.2
    · intro _ hflip
      rcases hg with h | h
      · rw [hflip] at h
        exact absurd h (by simp)
      · exact ⟨h.2.1, h.2.2⟩

/-- Witness for C3: concrete flips on a 4-replica cluster (`f = 1`).  Left: a
    PREPARE from replica 4 flips `prepared` on node 2's entry holding prepares
    `{3}`, leaving `2f = 2 ≤ |{4, 3}|`.  Right: a COMMIT from replica 4 flips
    `committed` on an entry holding commits `{1, 3}`, leaving `prepared` true
    and `2f + 1 = 3 ≤ |{4, 1, 3}|`. -/
theorem C3_quorum_thresholds_at_flip_witness :
    (PBFTState.quorum_prepare ⟨2, [1, 3, 4], true, false, 0, 1,
        [((0, 1), ⟨0, 1, "d", "c", "r", "p", {3}, ∅, false, false, false, none, none⟩)],
        [], [], []⟩ ≤
      (PBFTEntry.prepares ⟨0, 1, "d", "c", "r", "p", {4, 3}, {2}, true, false, false,
        none, none⟩).card) ∧
    (PBFTEntry.prepared ⟨0, 1, "d", "c", "r", "p", {3, 4}, {4, 1, 3}, true, true, true,
        some "p", some ""⟩ = true ∧
      PBFTState.quorum_commit ⟨2, [1, 3, 4], true, false, 0, 1,
        [((0, 1), ⟨0, 1, "d", "c", "r", "p", {3, 4}, {1, 3}, true, false, false,
          none, none⟩)], [], [], []⟩ ≤
      (PBFTEntry.commits ⟨0, 1, "d", "c", "r", "p", {3, 4}, {4, 1, 3}, true, true, true,
        some "p", some ""⟩).card) := by
  constructor
  · exact (C3_quorum_thresholds_at_flip
      ⟨2, [1, 3, 4], true, false, 0, 1,
        [((0, 1), ⟨0, 1, "d", "c", "r", "p", {3}, ∅, false, false, false, none, none⟩)],
        [], [], []⟩
      (.prepare ⟨0, 1, "d", 4⟩) (0, 1)
      ⟨0, 1, "d", "c", "r", "p", {4, 3}, {2}, true, false, false, none, none⟩
      (by decide)).1
      (by intro e0 he0; injection he0 with h2; rw [← h2])
      rfl
  · exact (C3_quorum_thresholds_at_flip
      ⟨2, [1, 3, 4], true, false, 0, 1,
        [((0, 1), ⟨0, 1, "d", "c", "r", "p", {3, 4}, {1, 3}, true, false, false,
          none, none⟩)], [], [], []⟩
      (.commit ⟨0, 1, "d", 4⟩) (0, 1)
      ⟨0, 1, "d", "c", "r", "p", {3, 4}, {4, 1, 3}, true, true, true, some "p", some ""⟩
      (by decide)).2
      (by intro e0 he0; injection he0 with h2; rw [← h2])
      rfl

/-- C4: `set_view(new_view, reason)` assigns `view := new_view` if and only if
    `new_view > view` and returns whether a change occurred; consequently a
    replica's view is nondecreasing across every single operation and every
    sequence of operations. -/
theorem C4_set_view_iff_and_view_monotonic :
    (∀ (s : PBFTState) (v : Nat) (r : String),
        (set_view s v r).1 = (if s.view < v then { s with view := v } else s) ∧
        ((set_view s v r).2 = true ↔ s.view < v)) ∧
    (∀ (s : PBFTState) (ev : Event), s.view ≤ (step s ev).1.view) ∧
    (∀ (s : PBFTState) (evs : List Event), s.view ≤ (runEvents s evs).view) := by
  refine ⟨?_, step_view_mono, fun s evs => runEvents_view_mono evs s⟩
  intro s v r
  constructor
  · rw [set_view_fst]
    by_cases h : s.view < v
    · rw [if_pos h, Nat.max_eq_right h.le]
    · rw [if_neg h, Nat.max_eq_left (Nat.le_of_not_lt h)]
  · rw [set_view_snd]
    simp [Nat.not_le]

/-- C5: For every PRE-PREPARE that passes the alive, view, and primary-identity
    checks, if the digest recomputed over the embedded request differs from
    `req.digest`, `on_pre_prepare` returns `ok = false` with error
    `"digest mismatch"`, raises the local view by exactly one (to one more than
    the checked view), and broadcasts SET-VIEW to all peers; no log entry is
    created or modified (the whole state changes only in its `view` field). -/
theorem C5_pre_prepare_digest_mismatch (s : PBFTState) (req : PrePrepareRequest) (b : Bool)
    (hal : s.alive = true) (hv : s.view ≤ req.view)
    (hp : req.primary_id = ({ s with view := req.view } : PBFTState).primary_id)
    (hd : digestOf req.request ≠ req.digest) :
    on_pre_prepare s req b =
      ({ s with view := req.view + 1 }, ⟨false, "digest mismatch"⟩,
       s.peers.map (fun pid => Action.sendSetView pid
         ⟨req.view + 1, s.node_id,
          "suspect primary " ++
            toString (({ s with view := req.view } : PBFTState).primary_id) ++
            ": PRE-PREPARE digest mismatch"⟩)) := by
  simp only [on_pre_prepare]
  rw [with_guards_ok _ _ _ _ hal hv]
  simp only [on_pre_prepare_body, hp, ne_eq, not_true_eq_false, if_false, ite_false,
    hd, not_false_eq_true, if_true, ite_true, set_view_fst, set_view_snd,
    broadcast_set_view]
  simp [Nat.max_eq_right (Nat.le_succ req.view)]

theorem f_update_view (s : PBFTState) (v : Nat) :
    ({ s with view := v } : PBFTState).f = s.f := rfl

theorem quorum_prepare_update_view (s : PBFTState) (v : Nat) :
    ({ s with view := v } : PBFTState).quorum_prepare = s.quorum_prepare := rfl

theorem quorum_commit_update_view (s : PBFTState) (v : Nat) :
    ({ s with view := v } : PBFTState).quorum_commit = s.quorum_commit := rfl

theorem on_prepare_body_conflict (t : PBFTState) (req : PrepareRequest)
    (entry : PBFTEntry) (he : lookupA t.log (req.view, req.seq) = some entry)
    (hex : entry.executed = false) (hd : entry.digest ≠ req.digest) :
    on_prepare_body t req =
      (if (insert req.replica_id
            ((lookupA t.conflicting_prepares (req.view, req.seq)).getD ∅)).card ≥ t.f + 1
       then
        ({ t with
            view := t.view + 1,
            conflicting_prepares := insertA t.conflicting_prepares (req.view, req.seq)
              (insert req.replica_id
                ((lookupA t.conflicting_prepares (req.view, req.seq)).getD ∅)) },
         ⟨false, "digest mismatch"⟩,
         t.peers.map (fun pid => Action.sendSetView pid
           ⟨t.view + 1, t.node_id,
            "suspect primary " ++ toString t.primary_id ++
              ": conflicting PREPARE digests for view=" ++ toString req.view ++
              " seq=" ++ toString req.seq⟩))
       else
        ({ t with
            conflicting_prepares := insertA t.conflicting_prepares (req.view, req.seq)
              (insert req.replica_id
                ((lookupA t.conflicting_prepares (req.view, req.seq)).getD ∅)) },
         ⟨false, "digest mismatch"⟩, [])) := by
  have hnot : ¬ (t.view + 1 ≤ t.view) := Nat.not_succ_le_self _
  simp only [on_prepare_body, he, hex, hd, ne_eq, not_false_eq_true, if_true, ite_true,
    Bool.false_eq_true, if_false, ite_false, set_view_fst, set_view_snd,
    broadcast_set_view, ge_iff_le]
  split
  · simp [set_view_snd, hnot, set_view_fst, Nat.max_eq_right (Nat.le_succ t.view)]
  · rfl

/-- Witness for C5: on a 4-replica cluster, node 2 at view 0 receives a
    PRE-PREPARE from primary 1 whose digest field does not hash the embedded
    request: it rejects with "digest mismatch", moves to view 1 and broadcasts
    SET-VIEW to all three peers, leaving the (empty) log untouched. -/
theorem C5_pre_prepare_digest_mismatch_witness :
    on_pre_prepare ⟨2, [1, 3, 4], true, false, 0, 1, [], [], [], []⟩
        ⟨0, 1, "bad", 1, ⟨"c", "r", 0, "p", false⟩⟩ true =
      (⟨2, [1, 3, 4], true, false, 1, 1, [], [], [], []⟩, ⟨false, "digest mismatch"⟩,
       [Action.sendSetView 1 ⟨1, 2, "suspect primary 1: PRE-PREPARE digest mismatch"⟩,
        Action.sendSetView 3 ⟨1, 2, "suspect primary 1: PRE-PREPARE digest mismatch"⟩,
        Action.sendSetView 4 ⟨1, 2, "suspect primary 1: PRE-PREPARE digest mismatch"⟩]) :=
  C5_pre_prepare_digest_mismatch _ _ true rfl (Nat.le_refl 0) (by decide) (by decide)

/-- C6: In `on_prepare`, when the entry for `(view, seq)` exists, is not
    executed, and `req.digest` differs from `entry.digest`: the sender's
    `replica_id` is added to `conflicting_prepares[(view, seq)]`, the call
    returns `ok = false` with error `"digest mismatch"`, the log (hence the
    entry's `prepares` set) is unchanged, and the view is raised by one (with a
    SET-VIEW broadcast to all peers) exactly when the conflict set reaches
    `f + 1` distinct replica IDs. -/
theorem C6_prepare_conflicting_digest (s : PBFTState) (req : PrepareRequest)
    (entry : PBFTEntry) (hal : s.alive = true) (hv : s.view ≤ req.view)
    (he : lookupA s.log (req.view, req.seq) = some entry)
    (hex : entry.executed = false) (hd : entry.digest ≠ req.digest) :
    on_prepare s req =
      (if (insert req.replica_id
            ((lookupA s.conflicting_prepares (req.view, req.seq)).getD ∅)).card ≥ s.f + 1
       then
        ({ s with
            view := req.view + 1,
            conflicting_prepares := insertA s.conflicting_prepares (req.view, req.seq)
              (insert req.replica_id
                ((lookupA s.conflicting_prepares (req.view, req.seq)).getD ∅)) },
         ⟨false, "digest mismatch"⟩,
         s.peers.map (fun pid => Action.sendSetView pid
           ⟨req.view + 1, s.node_id,
            "suspect primary " ++
              toString (({ s with view := req.view } : PBFTState).primary_id) ++
              ": conflicting PREPARE digests for view=" ++ toString req.view ++
              " seq=" ++ toString req.seq⟩))
       else
        ({ s with
            view := req.view,
            conflicting_prepares := insertA s.conflicting_prepares (req.view, req.seq)
              (insert req.replica_id
                ((lookupA s.conflicting_prepares (req.view, req.seq)).getD ∅)) },
         ⟨false, "digest mismatch"⟩, [])) := by
  simp only [on_prepare]
  rw [with_guards_ok _ _ _ _ hal hv]
  rw [on_prepare_body_conflict { s with view := req.view } req entry he hex hd]
  rfl

/-- Witness for C6: node 2 (4-replica cluster, `f = 1`) holds entry `(0, 1)`
    with digest `"d"`.  Left: a conflicting PREPARE from replica 4 with one
    prior conflict recorded reaches the threshold `f + 1 = 2`, so the view is
    raised to 1 and SET-VIEW is broadcast.  Right: the first conflicting
    PREPARE stays below the threshold, so only the evidence set grows. -/
theorem C6_prepare_conflicting_digest_witness :
    (on_prepare ⟨2, [1, 3, 4], true, false, 0, 1,
        [((0, 1), ⟨0, 1, "d", "c", "r", "p", ∅, ∅, false, false, false, none, none⟩)],
        [], [], [((0, 1), {3})]⟩ ⟨0, 1, "x", 4⟩ =
      (⟨2, [1, 3, 4], true, false, 1, 1,
        [((0, 1), ⟨0, 1, "d", "c", "r", "p", ∅, ∅, false, false, false, none, none⟩)],
        [], [], [((0, 1), {4, 3})]⟩, ⟨false, "digest mismatch"⟩,
       [Action.sendSetView 1 ⟨1, 2,
          "suspect primary 1: conflicting PREPARE digests for view=0 seq=1"⟩,
        Action.sendSetView 3 ⟨1, 2,
          "suspect primary 1: conflicting PREPARE digests for view=0 seq=1"⟩,
        Action.sendSetView 4 ⟨1, 2,
          "suspect primary 1: conflicting PREPARE digests for view=0 seq=1"⟩])) ∧
    (on_prepare ⟨2, [1, 3, 4], true, false, 0, 1,
        [((0, 1), ⟨0, 1, "d", "c", "r", "p", ∅, ∅, false, false, false, none, none⟩)],
        [], [], []⟩ ⟨0, 1, "x", 4⟩ =
      (⟨2, [1, 3, 4], true, false, 0, 1,
        [((0, 1), ⟨0, 1, "d", "c", "r", "p", ∅, ∅, false, false, false, none, none⟩)],
        [], [], [((0, 1), {4})]⟩, ⟨false, "digest mismatch"⟩, [])) := by
  constructor
  · exact (C6_prepare_conflicting_digest _ _
      ⟨0, 1, "d", "c", "r", "p", ∅, ∅, false, false, false, none, none⟩
      rfl (Nat.le_refl 0) (by decide) rfl (by decide)).trans (by decide)
  · exact (C6_prepare_conflicting_digest _ _
      ⟨0, 1, "d", "c", "r", "p", ∅, ∅, false, false, false, none, none⟩
      rfl (Nat.le_refl 0) (by decide) rfl (by decide)).trans (by decide)

theorem executeEntry_pendings (s : PBFTState) (k : EntryKey) :
    (executeEntry s k).pending_prepares = s.pending_prepares ∧
    (executeEntry s k).pending_commits = s.pending_commits := by
  unfold executeEntry
  cases hq : lookupA s.log k
  · exact ⟨rfl, rfl⟩
  · simp only []
    split <;> exact ⟨rfl, rfl⟩

theorem executeEntry_pending_prepares (s : PBFTState) (k : EntryKey) :
    (executeEntry s k).pending_prepares = s.pending_prepares := by
  unfold executeEntry
  cases hq : lookupA s.log k
  · rfl
  · simp only []
    split <;> rfl

theorem executeEntry_pending_commits (s : PBFTState) (k : EntryKey) :
    (executeEntry s k).pending_commits = s.pending_commits := by
  unfold executeEntry
  cases hq : lookupA s.log k
  · rfl
  · simp only []
    split <;> rfl

theorem executeEntry_forward (s : PBFTState) (k : EntryKey) (e : PBFTEntry)
    (he : lookupA s.log k = some e) :
    ∃ e2, entryAt (executeEntry s k) k = some e2 ∧
      e.prepares ⊆ e2.prepares ∧ e.commits ⊆ e2.commits := by
  unfold executeEntry
  rw [he]
  simp only []
  split
  · exact ⟨e, he, Finset.Subset.refl _, Finset.Subset.refl _⟩
  · refine ⟨{ e with result := some e.payload, executed := true, error := some "" },
      ?_, Finset.Subset.refl _, Finset.Subset.refl _⟩
    rw [entryAt, lookupA_insertA_self]

theorem on_commit_body_pending_prepares (s : PBFTState) (req : CommitRequest) :
    (on_commit_body s req).1.pending_prepares = s.pending_prepares := by
  rcases heq : lookupA s.log (req.view, req.seq) with _ | entry
  · simp [on_commit_body, heq]
  · by_cases hex : entry.executed = true
    · simp [on_commit_body, heq, hex]
    · by_cases hdig : entry.digest = req.digest
      · by_cases hb : (entry.prepared && !entry.committed &&
            decide ((insert req.replica_id entry.commits).card ≥ s.quorum_commit)) = true
        · simp [on_commit_body, heq, hex, hdig, hb, executeEntry_pending_prepares]
        · simp [on_commit_body, heq, hex, hdig, hb]
      · simp [on_commit_body, heq, hex, hdig]

theorem on_commit_body_pending_commits (s : PBFTState) (req : CommitRequest)
    (entry : PBFTEntry) (he : lookupA s.log (req.view, req.seq) = some entry) :
    (on_commit_body s req).1.pending_commits = s.pending_commits := by
  by_cases hex : entry.executed = true
  · simp [on_commit_body, he, hex]
  · by_cases hdig : entry.digest = req.digest
    · by_cases hb : (entry.prepared && !entry.committed &&
          decide ((insert req.replica_id entry.commits).card ≥ s.quorum_commit)) = true
      · simp [on_commit_body, he, hex, hdig, hb, executeEntry_pending_commits]
      · simp [on_commit_body, he, hex, hdig, hb]
    · simp [on_commit_body, he, hex, hdig]

theorem on_commit_body_forward (s : PBFTState) (req : CommitRequest) (e : PBFTEntry)
    (he : lookupA s.log (req.view, req.seq) = some e) :
    ∃ e2, entryAt (on_commit_body s req).1 (req.view, req.seq) = some e2 ∧
      e.prepares ⊆ e2.prepares ∧ e.commits ⊆ e2.commits := by
  by_cases hex : e.executed = true
  · simp only [on_commit_body, he, hex, if_true, ite_true]
    exact ⟨e, he, Finset.Subset.refl _, Finset.Subset.refl _⟩
  · by_cases hdig : e.digest = req.digest
    · simp only [on_commit_body, he, hex, hdig, ne_eq, not_true_eq_false,
        Bool.false_eq_true, if_false, ite_false, not_false_eq_true, ite_true]
      by_cases hb : (e.prepared && !e.committed &&
          decide ((insert req.replica_id e.commits).card ≥ s.quorum_commit)) = true
      · simp only [hb, if_true, ite_true, executeEntry, lookupA_insertA_self, hex,
          Bool.false_eq_true, if_false, ite_false]
        refine ⟨_, by rw [entryAt, lookupA_insertA_self], ?_, ?_⟩
        · exact Finset.Subset.refl _
        · exact Finset.subset_insert _ _
      · simp only [hb, if_false, ite_false, Bool.false_eq_true]
        refine ⟨_, by rw [entryAt, lookupA_insertA_self], ?_, ?_⟩
        · exact Finset.Subset.refl _
        · exact Finset.subset_insert _ _
    · simp only [on_commit_body, he, hex, hdig, ne_eq, not_false_eq_true, if_true,
        Bool.false_eq_true, if_false, ite_true, ite_false]
      exact ⟨e, he, Finset.Subset.refl _, Finset.Subset.refl _⟩

theorem on_commit_pending_prepares (s : PBFTState) (req : CommitRequest) :
    (on_commit s req).1.pending_prepares = s.pending_prepares := by
  simp only [on_commit]
  rcases with_guards_cases s req.view "COMMIT" (fun s1 => on_commit_body s1 req) with
    hc | hc | ⟨hal, hv, hc⟩ <;> rw [hc]
  exact on_commit_body_pending_prepares { s with view := req.view } req

theorem on_commit_pending_commits (s : PBFTState) (req : CommitRequest)
    (entry : PBFTEntry) (he : lookupA s.log (req.view, req.seq) = some entry) :
    (on_commit s req).1.pending_commits = s.pending_commits := by
  simp only [on_commit]
  rcases with_guards_cases s req.view "COMMIT" (fun s1 => on_commit_body s1 req) with
    hc | hc | ⟨hal, hv, hc⟩ <;> rw [hc]
  exact on_commit_body_pending_commits { s with view := req.view } req entry he

theorem on_commit_forward (s : PBFTState) (req : CommitRequest) (e : PBFTEntry)
    (he : lookupA s.log (req.view, req.seq) = some e) :
    ∃ e2, entryAt (on_commit s req).1 (req.view, req.seq) = some e2 ∧
      e.prepares ⊆ e2.prepares ∧ e.commits ⊆ e2.commits := by
  simp only [on_commit]
  rcases with_guards_cases s req.view "COMMIT" (fun s1 => on_commit_body s1 req) with
    hc | hc | ⟨hal, hv, hc⟩ <;> rw [hc]
  · exact ⟨e, he, Finset.Subset.refl _, Finset.Subset.refl _⟩
  · exact ⟨e, he, Finset.Subset.refl _, Finset.Subset.refl _⟩
  · exact on_commit_body_forward { s with view := req.view } req e he

theorem on_prepare_body_pending_prepares (s : PBFTState) (req : PrepareRequest)
    (entry : PBFTEntry) (he : lookupA s.log (req.view, req.seq) = some entry) :
    (on_prepare_body s req).1.pending_prepares = s.pending_prepares := by
  by_cases hex : entry.executed = true
  · simp [on_prepare_body, he, hex]
  · by_cases hdig : entry.digest = req.digest
    · by_cases hb : (!entry.prepared &&
          decide ((insert req.replica_id entry.prepares).card ≥ s.quorum_prepare)) = true
      · simp only [on_prepare_body, he, hex, hdig, ne_eq, not_true_eq_false,
          Bool.false_eq_true, if_false, ite_false, not_false_eq_true, ite_true,
          hb, if_true]
        exact on_commit_pending_prepares _ _
      · simp [on_prepare_body, he, hex, hdig, hb]
    · by_cases hc : (insert req.replica_id
          ((lookupA s.conflicting_prepares (req.view, req.seq)).getD ∅)).card ≥ s.f + 1
      · simp [on_prepare_body, he, hex, hdig, hc, set_view_fst]
      · simp [on_prepare_body, he, hex, hdig, hc]

theorem on_prepare_body_pending_commits (s : PBFTState) (req : PrepareRequest)
    (entry : PBFTEntry) (he : lookupA s.log (req.view, req.seq) = some entry) :
    (on_prepare_body s req).1.pending_commits = s.pending_commits := by
  by_cases hex : entry.executed = true
  · simp [on_prepare_body, he, hex]
  · by_cases hdig : entry.digest = req.digest
    · by_cases hb : (!entry.prepared &&
          decide ((insert req.replica_id entry.prepares).card ≥ s.quorum_prepare)) = true
      · simp only [on_prepare_body, he, hex, hdig, ne_eq, not_true_eq_false,
          Bool.false_eq_true, if_false, ite_false, not_false_eq_true, ite_true,
          hb, if_true]
        exact on_commit_pending_commits _ _ _ (lookupA_insertA_self _ _ _)
      · simp [on_prepare_body, he, hex, hdig, hb]
    · by_cases hc : (insert req.replica_id
          ((lookupA s.conflicting_prepares (req.view, req.seq)).getD ∅)).card ≥ s.f + 1
      · simp [on_prepare_body, he, hex, hdig, hc, set_view_fst]
      · simp [on_prepare_body, he, hex, hdig, hc]

theorem on_prepare_body_forward (s : PBFTState) (req : PrepareRequest) (e : PBFTEntry)
    (he : lookupA s.log (req.view, req.seq) = some e) :
    ∃ e2, entryAt (on_prepare_body s req).1 (req.view, req.seq) = some e2 ∧
      e.prepares ⊆ e2.prepares ∧ e.commits ⊆ e2.commits := by
  by_cases hex : e.executed = true
  · simp only [on_prepare_body, he, hex, if_true, ite_true]
    exact ⟨e, he, Finset.Subset.refl _, Finset.Subset.refl _⟩
  · by_cases hdig : e.digest = req.digest
    · simp only [on_prepare_body, he]
      rw [if_neg hex, if_neg (not_not_intro hdig)]
      by_cases hb : (!e.prepared &&
          decide ((insert req.replica_id e.prepares).card ≥ s.quorum_prepare)) = true
      · rw [if_pos hb, if_pos hb]
        rcases on_commit_forward { s with log := (insertA s.log (req.view, req.seq) { e with prepares := insert req.replica_id e.prepares, prepared := true }) } { view := req.view, seq := req.seq, digest := maybe_corrupt_digest s.byzantine req.digest, replica_id := s.node_id } { e with prepares := insert req.replica_id e.prepares, prepared := true } (lookupA_insertA_self s.log (req.view, req.seq) { e with prepares := insert req.replica_id e.prepares, prepared := true }) with ⟨e2, he2, hp2, hc2⟩
        exact ⟨e2, he2, (Finset.subset_insert _ _).trans hp2, hc2⟩
      · rw [if_neg hb, if_neg hb]
        refine ⟨_, by rw [entryAt, lookupA_insertA_self], ?_, ?_⟩
        · exact Finset.subset_insert _ _
        · exact Finset.Subset.refl _
    · simp only [on_prepare_body, he, hex, hdig, ne_eq, not_false_eq_true, if_true,
        Bool.false_eq_true, if_false, ite_true, ite_false]
      by_cases hc : (insert req.replica_id
          ((lookupA s.conflicting_prepares (req.view, req.seq)).getD ∅)).card ≥ s.f + 1
      · simp only [hc, if_true, ite_true, set_view_fst]
        exact ⟨e, he, Finset.Subset.refl _, Finset.Subset.refl _⟩
      · simp only [hc, if_false, ite_false]
        exact ⟨e, he, Finset.Subset.refl _, Finset.Subset.refl _⟩

theorem on_prepare_forward (s : PBFTState) (req : PrepareRequest) (e : PBFTEntry)
    (he : lookupA s.log (req.view, req.seq) = some e) :
    ∃ e2, entryAt (on_prepare s req).1 (req.view, req.seq) = some e2 ∧
      e.prepares ⊆ e2.prepares ∧ e.commits ⊆ e2.commits := by
  simp only [on_prepare]
  rcases with_guards_cases s req.view "PREPARE" (fun s1 => on_prepare_body s1 req) with
    hc | hc | ⟨hal, hv, hc⟩ <;> rw [hc]
  · exact ⟨e, he, Finset.Subset.refl _, Finset.Subset.refl _⟩
  · exact ⟨e, he, Finset.Subset.refl _, Finset.Subset.refl _⟩
  · exact on_prepare_body_forward { s with view := req.view } req e he

theorem on_prepare_pending_prepares (s : PBFTState) (req : PrepareRequest)
    (entry : PBFTEntry) (he : lookupA s.log (req.view, req.seq) = some entry) :
    (on_prepare s req).1.pending_prepares = s.pending_prepares := by
  simp only [on_prepare]
  rcases with_guards_cases s req.view "PREPARE" (fun s1 => on_prepare_body s1 req) with
    hc | hc | ⟨hal, hv, hc⟩ <;> rw [hc]
  exact on_prepare_body_pending_prepares { s with view := req.view } req entry he

theorem on_prepare_pending_commits (s : PBFTState) (req : PrepareRequest)
    (entry : PBFTEntry) (he : lookupA s.log (req.view, req.seq) = some entry) :
    (on_prepare s req).1.pending_commits = s.pending_commits := by
  simp only [on_prepare]
  rcases with_guards_cases s req.view "PREPARE" (fun s1 => on_prepare_body s1 req) with
    hc | hc | ⟨hal, hv, hc⟩ <;> rw [hc]
  exact on_prepare_body_pending_commits { s with view := req.view } req entry he

theorem multicast_prepare_forward (s : PBFTState) (view seq : Nat) (digest : String)
    (e : PBFTEntry) (he : lookupA s.log (view, seq) = some e) :
    ∃ e2, entryAt (multicast_prepare s view seq digest).1 (view, seq) = some e2 ∧
      e.prepares ⊆ e2.prepares ∧ e.commits ⊆ e2.commits := by
  by_cases hp : s.node_id = s.primary_id
  · simp only [multicast_prepare, hp, if_true, ite_true]
    exact ⟨e, he, Finset.Subset.refl _, Finset.Subset.refl _⟩
  · simp only [multicast_prepare, hp, if_false, ite_false]
    exact on_prepare_forward s
      { view := view, seq := seq, digest := maybe_corrupt_digest s.byzantine digest,
        replica_id := s.node_id } e he

theorem multicast_prepare_pending_prepares (s : PBFTState) (view seq : Nat)
    (digest : String) (e : PBFTEntry) (he : lookupA s.log (view, seq) = some e) :
    (multicast_prepare s view seq digest).1.pending_prepares = s.pending_prepares := by
  by_cases hp : s.node_id = s.primary_id
  · simp only [multicast_prepare, hp, if_true, ite_true]
  · simp only [multicast_prepare, hp, if_false, ite_false]
    exact on_prepare_pending_prepares s
      { view := view, seq := seq, digest := maybe_corrupt_digest s.byzantine digest,
        replica_id := s.node_id } e he

theorem multicast_prepare_pending_commits (s : PBFTState) (view seq : Nat)
    (digest : String) (e : PBFTEntry) (he : lookupA s.log (view, seq) = some e) :
    (multicast_prepare s view seq digest).1.pending_commits = s.pending_commits := by
  by_cases hp : s.node_id = s.primary_id
  · simp only [multicast_prepare, hp, if_true, ite_true]
  · simp only [multicast_prepare, hp, if_false, ite_false]
    exact on_prepare_pending_commits s
      { view := view, seq := seq, digest := maybe_corrupt_digest s.byzantine digest,
        replica_id := s.node_id } e he

theorem on_prepare_body_buffer (t : PBFTState) (req : PrepareRequest)
    (hnone : lookupA t.log (req.view, req.seq) = none) :
    on_prepare_body t req =
      ({ t with pending_prepares := insertA t.pending_prepares (req.view, req.seq, req.digest) (insert req.replica_id ((lookupA t.pending_prepares (req.view, req.seq, req.digest)).getD ∅)) },
       ⟨true, "buffered"⟩, []) := by
  simp only [on_prepare_body, hnone]

theorem on_commit_body_buffer (t : PBFTState) (req : CommitRequest)
    (hnone : lookupA t.log (req.view, req.seq) = none) :
    on_commit_body t req =
      ({ t with pending_commits := insertA t.pending_commits (req.view, req.seq, req.digest) (insert req.replica_id ((lookupA t.pending_commits (req.view, req.seq, req.digest)).getD ∅)) },
       ⟨true, "buffered"⟩, []) := by
  simp only [on_commit_body, hnone]

theorem multicast_drain_aux (s2 : PBFTState) (view seq : Nat) (digest : String)
    (E : PBFTEntry) (pp pc : Finset Nat)
    (hE : lookupA s2.log (view, seq) = some E)
    (hpp : pp ⊆ E.prepares) (hpc : pc ⊆ E.commits)
    (hnp : lookupA s2.pending_prepares (view, seq, digest) = none)
    (hnc : lookupA s2.pending_commits (view, seq, digest) = none) :
    ∃ e2, entryAt (multicast_prepare s2 view seq digest).1 (view, seq) = some e2 ∧
      pp ⊆ e2.prepares ∧ pc ⊆ e2.commits ∧
      lookupA (multicast_prepare s2 view seq digest).1.pending_prepares
        (view, seq, digest) = none ∧
      lookupA (multicast_prepare s2 view seq digest).1.pending_commits
        (view, seq, digest) = none := by
  rcases multicast_prepare_forward s2 view seq digest E hE with ⟨e2, he2, hp2, hc2⟩
  refine ⟨e2, he2, hpp.trans hp2, hpc.trans hc2, ?_, ?_⟩
  · rw [multicast_prepare_pending_prepares s2 view seq digest E hE]
    exact hnp
  · rw [multicast_prepare_pending_commits s2 view seq digest E hE]
    exact hnc

theorem on_pre_prepare_body_drain (s : PBFTState) (req : PrePrepareRequest) (b : Bool)
    (hp : req.primary_id = s.primary_id) (hd : digestOf req.request = req.digest) :
    ∃ e2, entryAt (on_pre_prepare_body s req b).1 (req.view, req.seq) = some e2 ∧
      (lookupA s.pending_prepares (req.view, req.seq, req.digest)).getD ∅ ⊆ e2.prepares ∧
      (lookupA s.pending_commits (req.view, req.seq, req.digest)).getD ∅ ⊆ e2.commits ∧
      lookupA (on_pre_prepare_body s req b).1.pending_prepares
        (req.view, req.seq, req.digest) = none ∧
      lookupA (on_pre_prepare_body s req b).1.pending_commits
        (req.view, req.seq, req.digest) = none := by
  rcases heq : lookupA s.log (req.view, req.seq) with _ | entry <;>
    simp only [on_pre_prepare_body, hp, hd, ne_eq, not_true_eq_false, if_false,
      ite_false, heq] <;>
    cases b
  · simp only [Bool.false_eq_true, if_false, ite_false]
    refine ⟨_, by rw [entryAt, lookupA_insertA_self], ?_, ?_, ?_, ?_⟩
    · exact Finset.subset_union_right
    · exact Finset.subset_union_right
    · exact lookupA_eraseA_self _ _
    · exact lookupA_eraseA_self _ _
  · simp only [if_true, ite_true]
    exact multicast_drain_aux _ _ _ _ _ _ _ (lookupA_insertA_self _ _ _)
      Finset.subset_union_right Finset.subset_union_right
      (lookupA_eraseA_self _ _) (lookupA_eraseA_self _ _)
  · simp only [Bool.false_eq_true, if_false, ite_false]
    refine ⟨_, by rw [entryAt, lookupA_insertA_self], ?_, ?_, ?_, ?_⟩
    · exact Finset.subset_union_right
    · exact Finset.subset_union_right
    · exact lookupA_eraseA_self _ _
    · exact lookupA_eraseA_self _ _
  · simp only [if_true, ite_true]
    exact multicast_drain_aux _ _ _ _ _ _ _ (lookupA_insertA_self _ _ _)
      Finset.subset_union_right Finset.subset_union_right
      (lookupA_eraseA_self _ _) (lookupA_eraseA_self _ _)

/-- C8: A PREPARE or COMMIT arriving before the matching entry exists is
    buffered under `(view, seq, digest)` with reply `ok = true`,
    `error = "buffered"` (and no other state change); when a PRE-PREPARE later
    accepted for that `(view, seq)` carries the same digest, every buffered
    sender ID is drained into the entry's `prepares` (respectively `commits`)
    set — each at most once, as these are sets — and the pending bucket for
    that key is removed. -/
theorem C8_buffering_and_drain :
    (∀ (s : PBFTState) (req : PrepareRequest), s.alive = true → s.view ≤ req.view →
      lookupA s.log (req.view, req.seq) = none →
      on_prepare s req =
        ({ s with
            view := req.view,
            pending_prepares := insertA s.pending_prepares (req.view, req.seq, req.digest)
              (insert req.replica_id
                ((lookupA s.pending_prepares (req.view, req.seq, req.digest)).getD ∅)) },
         ⟨true, "buffered"⟩, [])) ∧
    (∀ (s : PBFTState) (req : CommitRequest), s.alive = true → s.view ≤ req.view →
      lookupA s.log (req.view, req.seq) = none →
      on_commit s req =
        ({ s with
            view := req.view,
            pending_commits := insertA s.pending_commits (req.view, req.seq, req.digest)
              (insert req.replica_id
                ((lookupA s.pending_commits (req.view, req.seq, req.digest)).getD ∅)) },
         ⟨true, "buffered"⟩, [])) ∧
    (∀ (s : PBFTState) (req : PrePrepareRequest) (b : Bool),
      s.alive = true → s.view ≤ req.view →
      req.primary_id = ({ s with view := req.view } : PBFTState).primary_id →
      digestOf req.request = req.digest →
      ∃ e2, entryAt (on_pre_prepare s req b).1 (req.view, req.seq) = some e2 ∧
        (lookupA s.pending_prepares (req.view, req.seq, req.digest)).getD ∅ ⊆ e2.prepares ∧
        (lookupA s.pending_commits (req.view, req.seq, req.digest)).getD ∅ ⊆ e2.commits ∧
        lookupA (on_pre_prepare s req b).1.pending_prepares
          (req.view, req.seq, req.digest) = none ∧
        lookupA (on_pre_prepare s req b).1.pending_commits
          (req.view, req.seq, req.digest) = none) := by
  refine ⟨?_, ?_, ?_⟩
  · intro s req hal hv hnone
    simp only [on_prepare]
    rw [with_guards_ok _ _ _ _ hal hv,
      on_prepare_body_buffer { s with view := req.view } req hnone]
  · intro s req hal hv hnone
    simp only [on_commit]
    rw [with_guards_ok _ _ _ _ hal hv,
      on_commit_body_buffer { s with view := req.view } req hnone]
  · intro s req b hal hv hp hd
    simp only [on_pre_prepare]
    rw [with_guards_ok _ _ _ _ hal hv]
    exact on_pre_prepare_body_drain { s with view := req.view } req b hp hd

/-- Witness for C8: node 2 at view 0 with empty log buffers a PREPARE and a
    COMMIT from replica 3 under `(0, 1, "d")`; then, holding buckets
    `{3, 4}` / `{4}` for the digest of the real request, an accepted
    PRE-PREPARE from primary 1 drains both buckets into the entry and removes
    them. -/
theorem C8_buffering_and_drain_witness :
    (on_prepare ⟨2, [1, 3, 4], true, false, 0, 1, [], [], [], []⟩ ⟨0, 1, "d", 3⟩ =
      (⟨2, [1, 3, 4], true, false, 0, 1, [], [((0, 1, "d"), {3})], [], []⟩,
       ⟨true, "buffered"⟩, [])) ∧
    (on_commit ⟨2, [1, 3, 4], true, false, 0, 1, [], [], [], []⟩ ⟨0, 1, "d", 3⟩ =
      (⟨2, [1, 3, 4], true, false, 0, 1, [], [], [((0, 1, "d"), {3})], []⟩,
       ⟨true, "buffered"⟩, [])) ∧
    (∃ e2, entryAt (on_pre_prepare
        ⟨2, [1, 3, 4], true, false, 0, 1, [],
          [((0, 1, digestOf ⟨"c", "r", 0, "p", false⟩), {3, 4})],
          [((0, 1, digestOf ⟨"c", "r", 0, "p", false⟩), {4})], []⟩
        ⟨0, 1, digestOf ⟨"c", "r", 0, "p", false⟩, 1, ⟨"c", "r", 0, "p", false⟩⟩
        true).1 (0, 1) = some e2 ∧
      (lookupA [((0, 1, digestOf ⟨"c", "r", 0, "p", false⟩), ({3, 4} : Finset Nat))]
        (0, 1, digestOf ⟨"c", "r", 0, "p", false⟩)).getD ∅ ⊆ e2.prepares ∧
      (lookupA [((0, 1, digestOf ⟨"c", "r", 0, "p", false⟩), ({4} : Finset Nat))]
        (0, 1, digestOf ⟨"c", "r", 0, "p", false⟩)).getD ∅ ⊆ e2.commits ∧
      lookupA (on_pre_prepare
        ⟨2, [1, 3, 4], true, false, 0, 1, [],
          [((0, 1, digestOf ⟨"c", "r", 0, "p", false⟩), {3, 4})],
          [((0, 1, digestOf ⟨"c", "r", 0, "p", false⟩), {4})], []⟩
        ⟨0, 1, digestOf ⟨"c", "r", 0, "p", false⟩, 1, ⟨"c", "r", 0, "p", false⟩⟩
        true).1.pending_prepares (0, 1, digestOf ⟨"c", "r", 0, "p", false⟩) = none ∧
      lookupA (on_pre_prepare
        ⟨2, [1, 3, 4], true, false, 0, 1, [],
          [((0, 1, digestOf ⟨"c", "r", 0, "p", false⟩), {3, 4})],
          [((0, 1, digestOf ⟨"c", "r", 0, "p", false⟩), {4})], []⟩
        ⟨0, 1, digestOf ⟨"c", "r", 0, "p", false⟩, 1, ⟨"c", "r", 0, "p", false⟩⟩
        true).1.pending_commits (0, 1, digestOf ⟨"c", "r", 0, "p", false⟩) = none) := by
  refine ⟨?_, ?_, ?_⟩
  · exact (C8_buffering_and_drain.1 ⟨2, [1, 3, 4], true, false, 0, 1, [], [], [], []⟩
      ⟨0, 1, "d", 3⟩ rfl (Nat.le_refl 0) rfl).trans (by decide)
  · exact (C8_buffering_and_drain.2.1 ⟨2, [1, 3, 4], true, false, 0, 1, [], [], [], []⟩
      ⟨0, 1, "d", 3⟩ rfl (Nat.le_refl 0) rfl).trans (by decide)
  · exact C8_buffering_and_drain.2.2 _ _ true rfl (Nat.le_refl 0) (by decide) rfl

theorem append_ne_of_length_pos (x t : String) (h : 0 < t.length) : x ++ t ≠ x := by
  intro hEq
  have h2 := congrArg String.length hEq
  rw [String.length_append] at h2
  omega

theorem append_byz_ne (x : String) : x ++ ":byz" ≠ x :=
  append_ne_of_length_pos x ":byz" (by decide)

theorem mutated_payload_ne (p a b : String) : p ++ "|BYZ:" ++ a ++ ":" ++ b ≠ p := by
  intro hEq
  have h2 := congrArg String.length hEq
  simp only [String.length_append] at h2
  have h5 : (("|BYZ:" : String)).length = 5 := rfl
  have h1 : ((":" : String)).length = 1 := rfl
  omega

/-- C7: When a Byzantine primary handles a client request: for each peer it
    sends one chaos PRE-PREPARE — `wrong_digest` (the correct digest with the
    literal `:byz` appended, real request embedded) or `mutated_payload`
    (payload with `|BYZ:<peer_id>:<rnd>` appended and the digest recomputed over
    the mutated request, `client_id`/`request_id`/`timestamp_ms`/`forwarded`
    preserved), according to the chaos oracle that stands for the uniform
    `random.choice`; it sends no correct PRE-PREPARE, and it immediately
    returns a reply with `committed = false` and error
    `"byzantine primary: sent chaotic PRE-PREPARE (no commit expected)"`. -/
theorem C7_byzantine_primary_chaos (s : PBFTState) (req : ClientRequest)
    (chaos : Nat → ChaosChoice)
    (hal : s.alive = true) (hbz : s.byzantine = true) (_hp : s.node_id = s.primary_id) :
    (on_client_request_primary s req chaos).2.1 =
      some { client_id := req.client_id, request_id := req.request_id,
             replica_id := s.node_id, view := s.view, seq := s.next_seq,
             committed := false, result := "",
             error := "byzantine primary: sent chaotic PRE-PREPARE (no commit expected)" } ∧
    (on_client_request_primary s req chaos).2.2 =
      s.peers.map (fun peer => Action.sendPrePrepare peer
        (byz_make_chaos_pre_prepare true (chaos peer) req s.view s.next_seq s.node_id peer)) ∧
    (∀ peer : Nat,
      (chaos peer = .wrongDigest ∧
        byz_make_chaos_pre_prepare true (chaos peer) req s.view s.next_seq s.node_id peer =
          { view := s.view, seq := s.next_seq, digest := digestOf req ++ ":byz",
            primary_id := s.node_id, request := req }) ∨
      (∃ rnd, chaos peer = .mutatedPayload rnd ∧
        byz_make_chaos_pre_prepare true (chaos peer) req s.view s.next_seq s.node_id peer =
          { view := s.view, seq := s.next_seq,
            digest := digestOf { req with
              payload := req.payload ++ "|BYZ:" ++ toString peer ++ ":" ++ toString rnd },
            primary_id := s.node_id,
            request := { req with
              payload := req.payload ++ "|BYZ:" ++ toString peer ++ ":" ++ toString rnd } })) ∧
    (∀ (peer : Nat) (msg : PrePrepareRequest),
      Action.sendPrePrepare peer msg ∈ (on_client_request_primary s req chaos).2.2 →
      msg ≠ { view := s.view, seq := s.next_seq, digest := digestOf req,
              primary_id := s.node_id, request := req }) := by
  refine ⟨?_, ?_, ?_, ?_⟩
  · simp [on_client_request_primary, hal, hbz]
  · simp [on_client_request_primary, hal, hbz]
  · intro peer
    cases hch : chaos peer with
    | wrongDigest =>
        exact Or.inl ⟨rfl, by simp [byz_make_chaos_pre_prepare, maybe_corrupt_digest]⟩
    | mutatedPayload rnd =>
        exact Or.inr ⟨rnd, rfl, by simp [byz_make_chaos_pre_prepare]⟩
  · intro peer msg hmem hmsg
    rw [show (on_client_request_primary s req chaos).2.2 =
        s.peers.map (fun peer => Action.sendPrePrepare peer
          (byz_make_chaos_pre_prepare true (chaos peer) req s.view s.next_seq s.node_id peer))
        from by simp [on_client_request_primary, hal, hbz]] at hmem
    rw [List.mem_map] at hmem
    rcases hmem with ⟨p2, _, hact⟩
    have hmsg2 : byz_make_chaos_pre_prepare true (chaos p2) req s.view s.next_seq
        s.node_id p2 = msg := by
      injection hact with h1 h2
    rw [hmsg] at hmsg2
    cases hch : chaos p2 with
    | wrongDigest =>
        rw [hch] at hmsg2
        simp only [byz_make_chaos_pre_prepare, maybe_corrupt_digest, if_true,
          ite_true] at hmsg2
        have hdg : digestOf req ++ ":byz" = digestOf req := by
          have := congrArg PrePrepareRequest.digest hmsg2
          simpa using this
        exact append_byz_ne _ hdg
    | mutatedPayload rnd =>
        rw [hch] at hmsg2
        simp only [byz_make_chaos_pre_prepare] at hmsg2
        have hpay : req.payload ++ "|BYZ:" ++ toString p2 ++ ":" ++ toString rnd =
            req.payload := by
          have h3 := congrArg (fun m : PrePrepareRequest => m.request.payload) hmsg2
          simpa using h3
        exact mutated_payload_ne _ _ _ hpay

/-- Witness for C7: Byzantine primary 1 (peers 2, 3, 4) handles a client
    request under a chaos oracle that picks `wrong_digest` for peer 2 and
    `mutated_payload` with salt 7 otherwise: the immediate reply is the
    non-committing "byzantine primary" error, peer 2's chaos message carries
    the `:byz`-suffixed digest, and peer 2's message differs from the correct
    PRE-PREPARE. -/
theorem C7_byzantine_primary_chaos_witness :
    ((on_client_request_primary ⟨1, [2, 3, 4], true, true, 0, 1, [], [], [], []⟩
        ⟨"c", "r", 0, "p", false⟩
        (fun peer => if peer = 2 then .wrongDigest else .mutatedPayload 7)).2.1 =
      some { client_id := "c", request_id := "r", replica_id := 1, view := 0, seq := 1,
             committed := false, result := "",
             error := "byzantine primary: sent chaotic PRE-PREPARE (no commit expected)" }) ∧
    (((fun peer => if peer = 2 then ChaosChoice.wrongDigest
          else ChaosChoice.mutatedPayload 7) 2 = ChaosChoice.wrongDigest ∧
      byz_make_chaos_pre_prepare true
        ((fun peer => if peer = 2 then ChaosChoice.wrongDigest
          else ChaosChoice.mutatedPayload 7) 2)
        ⟨"c", "r", 0, "p", false⟩ 0 1 1 2 =
        { view := 0, seq := 1, digest := digestOf ⟨"c", "r", 0, "p", false⟩ ++ ":byz",
          primary_id := 1, request := ⟨"c", "r", 0, "p", false⟩ }) ∨
      (∃ rnd, (fun peer => if peer = 2 then ChaosChoice.wrongDigest
          else ChaosChoice.mutatedPayload 7) 2 = ChaosChoice.mutatedPayload rnd ∧
        byz_make_chaos_pre_prepare true
          ((fun peer => if peer = 2 then ChaosChoice.wrongDigest
            else ChaosChoice.mutatedPayload 7) 2)
          ⟨"c", "r", 0, "p", false⟩ 0 1 1 2 =
          { view := 0, seq := 1,
            digest := digestOf ⟨"c", "r", 0,
              "p" ++ "|BYZ:" ++ toString 2 ++ ":" ++ toString rnd, false⟩,
            primary_id := 1,
            request := ⟨"c", "r", 0,
              "p" ++ "|BYZ:" ++ toString 2 ++ ":" ++ toString rnd, false⟩ })) ∧
    (byz_make_chaos_pre_prepare true ChaosChoice.wrongDigest
        ⟨"c", "r", 0, "p", false⟩ 0 1 1 2 ≠
      { view := 0, seq := 1, digest := digestOf ⟨"c", "r", 0, "p", false⟩,
        primary_id := 1, request := ⟨"c", "r", 0, "p", false⟩ }) := by
  refine ⟨?_, ?_, ?_⟩
  · exact (C7_byzantine_primary_chaos
      ⟨1, [2, 3, 4], true, true, 0, 1, [], [], [], []⟩ ⟨"c", "r", 0, "p", false⟩
      (fun peer => if peer = 2 then .wrongDigest else .mutatedPayload 7)
      rfl rfl rfl).1
  · exact (C7_byzantine_primary_chaos
      ⟨1, [2, 3, 4], true, true, 0, 1, [], [], [], []⟩ ⟨"c", "r", 0, "p", false⟩
      (fun peer => if peer = 2 then .wrongDigest else .mutatedPayload 7)
      rfl rfl rfl).2.2.1 2
  · exact (C7_byzantine_primary_chaos
      ⟨1, [2, 3, 4], true, true, 0, 1, [], [], [], []⟩ ⟨"c", "r", 0, "p", false⟩
      (fun peer => if peer = 2 then .wrongDigest else .mutatedPayload 7)
      rfl rfl rfl).2.2.2 2
      (byz_make_chaos_pre_prepare true ChaosChoice.wrongDigest
        ⟨"c", "r", 0, "p", false⟩ 0 1 1 2)
      (by decide)

theorem on_commit_reject (s : PBFTState) (req : CommitRequest) (e : PBFTEntry)
    (hal : s.alive = true) (hv : s.view ≤ req.view)
    (he : lookupA s.log (req.view, req.seq) = some e)
    (hex : e.executed = false) (hd : e.digest ≠ req.digest) :
    on_commit s req = ({ s with view := req.view }, ⟨false, "digest mismatch"⟩, []) := by
  simp only [on_commit]
  rw [with_guards_ok _ _ _ _ hal hv]
  simp [on_commit_body, he, hex, hd]

theorem on_prepare_body_byz_self_commit (t : PBFTState) (req : PrepareRequest)
    (e : PBFTEntry) (hbz : t.byzantine = true) (hal : t.alive = true)
    (hveq : req.view = t.view)
    (he : lookupA t.log (req.view, req.seq) = some e) (hex : e.executed = false)
    (hdig : e.digest = req.digest) (e2 : PBFTEntry)
    (h2 : entryAt (on_prepare_body t req).1 (req.view, req.seq) = some e2) :
    e2.commits = e.commits := by
  simp only [on_prepare_body, he] at h2
  rw [if_neg (by rw [hex]; exact Bool.false_ne_true),
    if_neg (not_not_intro hdig)] at h2
  by_cases hb : (!e.prepared &&
      decide ((insert req.replica_id e.prepares).card ≥ t.quorum_prepare)) = true
  · rw [if_pos hb, if_pos hb] at h2
    rw [on_commit_reject
      { t with log := (insertA t.log (req.view, req.seq) { e with prepares := insert req.replica_id e.prepares, prepared := true }) }
      { view := req.view, seq := req.seq,
        digest := maybe_corrupt_digest t.byzantine req.digest, replica_id := t.node_id }
      { e with prepares := insert req.replica_id e.prepares, prepared := true }
      hal (le_of_eq hveq.symm)
      (lookupA_insertA_self _ (req.view, req.seq) _)
      hex
      (by rw [hdig, maybe_corrupt_digest, if_pos hbz]; exact (append_byz_ne _).symm)] at h2
    rw [entryAt] at h2
    simp only [] at h2
    rw [lookupA_insertA_self, Option.some_inj] at h2
    rw [← h2]
  · rw [if_neg hb, if_neg hb] at h2
    rw [entryAt] at h2
    simp only [] at h2
    rw [lookupA_insertA_self, Option.some_inj] at h2
    rw [← h2]

/-- C9: When a replica is Byzantine, the PREPARE and COMMIT it counts locally
    for itself carry the corrupted digest (`entry digest ++ ":byz"`), so its
    own `on_prepare`/`on_commit` rejects them as digest mismatches.  Left
    conjunct: the self-counted PREPARE of `_multicast_prepare` on a Byzantine
    non-primary leaves the log (hence every entry's `prepares` set) unchanged
    and adds the node's own ID to its `conflicting_prepares` evidence for that
    slot.  Right conjunct: processing any digest-matching PREPARE on a
    Byzantine replica leaves the entry's `commits` set unchanged — the COMMIT
    it counts for itself on becoming prepared is self-rejected, so its own
    `node_id` never enters `prepares` or `commits` of its own entries through
    its self-counted votes. -/
theorem C9_byzantine_self_votes_rejected :
    (∀ (s : PBFTState) (view seq : Nat) (digest : String) (e : PBFTEntry),
      s.byzantine = true → s.alive = true → s.node_id ≠ s.primary_id →
      view = s.view → lookupA s.log (view, seq) = some e → e.executed = false →
      e.digest = digest →
      (multicast_prepare s view seq digest).1.log = s.log ∧
      lookupA (multicast_prepare s view seq digest).1.conflicting_prepares (view, seq) =
        some (insert s.node_id
          ((lookupA s.conflicting_prepares (view, seq)).getD ∅))) ∧
    (∀ (s : PBFTState) (req : PrepareRequest) (e e2 : PBFTEntry),
      s.byzantine = true → s.alive = true → req.view = s.view →
      lookupA s.log (req.view, req.seq) = some e → e.executed = false →
      e.digest = req.digest →
      entryAt (on_prepare s req).1 (req.view, req.seq) = some e2 →
      e2.commits = e.commits) := by
  constructor
  · intro s view seq digest e hbz hal hnp hveq he hex hdig
    subst hveq
    simp only [multicast_prepare, hnp, if_false, ite_false]
    simp only [maybe_corrupt_digest, hbz, if_true, ite_true]
    simp only [on_prepare]
    rw [with_guards_ok _ _ _ _ hal (Nat.le_refl _)]
    rw [on_prepare_body_conflict { s with view := s.view }
      { view := s.view, seq := seq, digest := digest ++ ":byz", replica_id := s.node_id }
      e he hex (by rw [hdig]; exact (append_byz_ne _).symm)]
    split
    · exact ⟨rfl, lookupA_insertA_self _ _ _⟩
    · exact ⟨rfl, lookupA_insertA_self _ _ _⟩
  · intro s req e e2 hbz hal hveq he hex hdig h2
    simp only [on_prepare] at h2
    rw [with_guards_ok _ _ _ _ hal (le_of_eq hveq.symm)] at h2
    exact on_prepare_body_byz_self_commit { s with view := req.view } req e hbz hal rfl
      he hex hdig e2 h2

/-- Witness for C9: Byzantine node 2 (peers 1, 3, 4, view 0) holds entry
    `(0, 1)` with digest `"d"`.  Left: its own multicast PREPARE (corrupted to
    `"d:byz"`) is self-rejected — log unchanged, own ID 2 recorded as conflict
    evidence.  Right: a digest-matching PREPARE from replica 3 flips the entry
    to prepared, and the self-counted COMMIT (corrupted digest) is rejected —
    the commits set stays empty. -/
theorem C9_byzantine_self_votes_rejected_witness :
    ((multicast_prepare ⟨2, [1, 3, 4], true, true, 0, 1,
        [((0, 1), ⟨0, 1, "d", "c", "r", "p", ∅, ∅, false, false, false, none, none⟩)],
        [], [], []⟩ 0 1 "d").1.log =
      (⟨2, [1, 3, 4], true, true, 0, 1,
        [((0, 1), ⟨0, 1, "d", "c", "r", "p", ∅, ∅, false, false, false, none, none⟩)],
        [], [], []⟩ : PBFTState).log ∧
     lookupA (multicast_prepare ⟨2, [1, 3, 4], true, true, 0, 1,
        [((0, 1), ⟨0, 1, "d", "c", "r", "p", ∅, ∅, false, false, false, none, none⟩)],
        [], [], []⟩ 0 1 "d").1.conflicting_prepares (0, 1) =
      some (insert 2 ((lookupA ([] : List (EntryKey × Finset Nat)) (0, 1)).getD ∅))) ∧
    PBFTEntry.commits ⟨0, 1, "d", "c", "r", "p", {3, 4}, ∅, true, false, false,
        none, none⟩ =
      PBFTEntry.commits ⟨0, 1, "d", "c", "r", "p", {4}, ∅, false, false, false,
        none, none⟩ := by
  constructor
  · exact C9_byzantine_self_votes_rejected.1
      ⟨2, [1, 3, 4], true, true, 0, 1,
        [((0, 1), ⟨0, 1, "d", "c", "r", "p", ∅, ∅, false, false, false, none, none⟩)],
        [], [], []⟩ 0 1 "d"
      ⟨0, 1, "d", "c", "r", "p", ∅, ∅, false, false, false, none, none⟩
      rfl rfl (by decide) rfl rfl rfl rfl
  · exact C9_byzantine_self_votes_rejected.2
      ⟨2, [1, 3, 4], true, true, 0, 1,
        [((0, 1), ⟨0, 1, "d", "c", "r", "p", {4}, ∅, false, false, false, none, none⟩)],
        [], [], []⟩ ⟨0, 1, "d", 3⟩
      ⟨0, 1, "d", "c", "r", "p", {4}, ∅, false, false, false, none, none⟩
      ⟨0, 1, "d", "c", "r", "p", {3, 4}, ∅, true, false, false, none, none⟩
      rfl rfl rfl rfl rfl rfl (by decide)

/-- Counterexample to C10 as stated: on node 2 (peers 1, 3, 4, `f = 1`,
    `quorum_prepare = 2`) holding buffered PREPAREs `{3, 4}` for
    `(0, 1, digest)`, a PRE-PREPARE from primary 1 with the default
    `broadcast_prepare = true` returns with the entry's `prepared` flag already
    `true`: the drained votes plus the node's own PREPARE (counted through the
    nested `_multicast_prepare` → `on_prepare` call) reach quorum before
    `on_pre_prepare` returns. -/
theorem C10_counterexample :
    (entryAt (on_pre_prepare
        ⟨2, [1, 3, 4], true, false, 0, 1, [],
          [((0, 1, digestOf ⟨"c", "r", 0, "p", false⟩), {3, 4})], [], []⟩
        ⟨0, 1, digestOf ⟨"c", "r", 0, "p", false⟩, 1, ⟨"c", "r", 0, "p", false⟩⟩
        true).1 (0, 1)).map PBFTEntry.prepared = some true := by
  decide

/-- C10 amended: the guarded body of `on_pre_prepare` itself never changes an
    entry's `prepared`, `committed`, or `executed` flags — with
    `broadcast_prepare = false` (no nested PREPARE multicast) every existing
    entry keeps its three flags and a created entry has all three `false`,
    even when the drained pending votes already meet the quorum thresholds,
    because quorum is evaluated only inside `on_prepare` and `on_commit`;
    with the default `broadcast_prepare = true` those nested calls run before
    `on_pre_prepare` returns and may flip the flags (see the counterexample). -/
theorem C10_pre_prepare_flags_frame (s : PBFTState) (req : PrePrepareRequest)
    (k : EntryKey) (e2 : PBFTEntry)
    (h2 : entryAt (on_pre_prepare s req false).1 k = some e2) :
    (∃ e0, entryAt s k = some e0 ∧ e2.prepared = e0.prepared ∧
      e2.committed = e0.committed ∧ e2.executed = e0.executed) ∨
    (entryAt s k = none ∧ e2.prepared = false ∧ e2.committed = false ∧
      e2.executed = false) := by
  have hframe : ∀ t : PBFTState, t.log = s.log →
      entryAt t k = some e2 →
      (∃ e0, entryAt s k = some e0 ∧ e2.prepared = e0.prepared ∧
        e2.committed = e0.committed ∧ e2.executed = e0.executed) ∨
      (entryAt s k = none ∧ e2.prepared = false ∧ e2.committed = false ∧
        e2.executed = false) := by
    intro t hlog ht
    rw [entryAt, hlog] at ht
    exact Or.inl ⟨e2, ht, rfl, rfl, rfl⟩
  simp only [on_pre_prepare] at h2
  rcases with_guards_cases s req.view "PRE-PREPARE"
      (fun s1 => on_pre_prepare_body s1 req false) with hc | hc | ⟨hal, hv, hc⟩ <;>
    rw [hc] at h2
  · exact hframe s rfl h2
  · exact hframe s rfl h2
  · by_cases hp : req.primary_id = ({ s with view := req.view } : PBFTState).primary_id
    swap
    · simp only [on_pre_prepare_body, hp, ne_eq, not_false_eq_true, if_true, ite_true] at h2
      exact hframe { s with view := req.view } rfl h2
    · by_cases hd : digestOf req.request = req.digest
      swap
      · simp only [on_pre_prepare_body, hp, hd, ne_eq, not_true_eq_false, if_false,
          not_false_eq_true, if_true, ite_true, ite_false, set_view_fst] at h2
        exact hframe _ rfl h2
      · rcases heq : lookupA s.log (req.view, req.seq) with _ | entry <;>
          simp only [on_pre_prepare_body, hp, hd, ne_eq, not_true_eq_false, if_false,
            ite_false, heq, Bool.false_eq_true] at h2
        · by_cases hk : ((req.view : Nat), (req.seq : Nat)) = k
          · rw [← hk] at h2 ⊢
            rw [entryAt] at h2
            simp only [] at h2
            rw [lookupA_insertA_self, Option.some_inj] at h2
            rw [← h2]
            exact Or.inr ⟨heq, rfl, rfl, rfl⟩
          · rw [entryAt] at h2
            simp only [] at h2
            rw [lookupA_insertA_ne _ _ _ _ hk] at h2
            exact Or.inl ⟨e2, h2, rfl, rfl, rfl⟩
        · by_cases hk : ((req.view : Nat), (req.seq : Nat)) = k
          · rw [← hk] at h2 ⊢
            rw [entryAt] at h2
            simp only [] at h2
            rw [lookupA_insertA_self, Option.some_inj] at h2
            rw [← h2]
            exact Or.inl ⟨entry, heq, rfl, rfl, rfl⟩
          · rw [entryAt] at h2
            simp only [] at h2
            rw [lookupA_insertA_ne _ _ _ _ hk] at h2
            exact Or.inl ⟨e2, h2, rfl, rfl, rfl⟩

/-- Witness for the amended C10: the counterexample's input with
    `broadcast_prepare = false` — the created entry holds the drained quorum
    `{3, 4}` yet all three phase flags are still `false`. -/
theorem C10_pre_prepare_flags_frame_witness :
    (entryAt ⟨2, [1, 3, 4], true, false, 0, 1, [],
        [((0, 1, digestOf ⟨"c", "r", 0, "p", false⟩), {3, 4})], [], []⟩ (0, 1) = none ∧
      PBFTEntry.prepared ⟨0, 1, digestOf ⟨"c", "r", 0, "p", false⟩, "c", "r", "p",
        {3, 4}, ∅, false, false, false, none, none⟩ = false ∧
      PBFTEntry.committed ⟨0, 1, digestOf ⟨"c", "r", 0, "p", false⟩, "c", "r", "p",
        {3, 4}, ∅, false, false, false, none, none⟩ = false ∧
      PBFTEntry.executed ⟨0, 1, digestOf ⟨"c", "r", 0, "p", false⟩, "c", "r", "p",
        {3, 4}, ∅, false, false, false, none, none⟩ = false) := by
  rcases C10_pre_prepare_flags_frame
      ⟨2, [1, 3, 4], true, false, 0, 1, [],
        [((0, 1, digestOf ⟨"c", "r", 0, "p", false⟩), {3, 4})], [], []⟩
      ⟨0, 1, digestOf ⟨"c", "r", 0, "p", false⟩, 1, ⟨"c", "r", 0, "p", false⟩⟩
      (0, 1)
      ⟨0, 1, digestOf ⟨"c", "r", 0, "p", false⟩, "c", "r", "p", {3, 4}, ∅,
        false, false, false, none, none⟩
      (by decide) with ⟨e0, he0, _⟩ | ⟨hnone, hflags⟩
  · simp [entryAt, lookupA] at he0
  · exact ⟨hnone, hflags⟩

/-- Counterexample to C2 as stated: node 2 (peers 1, 3, 4) at view 0 is not
    the primary (primary is 1), yet `ensure_live_primary` returns `true` as
    soon as the primary answers the ping — so "returns true iff this replica
    is the primary at return" fails. -/
theorem C2_counterexample :
    (ensure_live_primary ⟨2, [1, 3, 4], true, false, 0, 1, [], [], [], []⟩
        (fun _ => true) none).2.1 = true ∧
    (ensure_live_primary ⟨2, [1, 3, 4], true, false, 0, 1, [], [], [], []⟩
        (fun _ => true) none).1.primary_id ≠
      (ensure_live_primary ⟨2, [1, 3, 4], true, false, 0, 1, [], [], [], []⟩
        (fun _ => true) none).1.node_id := by
  decide

theorem ensure_live_primary_go_spec (p : Nat → Bool) :
    ∀ (hops i : Nat) (s : PBFTState) (acts : List Action),
      ((ensure_live_primary_go p hops i s acts).2.1 = false →
        (ensure_live_primary_go p hops i s acts).1.primary_id ≠
          (ensure_live_primary_go p hops i s acts).1.node_id) ∧
      ((ensure_live_primary_go p hops i s acts).1.primary_id =
          (ensure_live_primary_go p hops i s acts).1.node_id →
        (ensure_live_primary_go p hops i s acts).2.1 = true) := by
  intro hops
  induction hops with
  | zero =>
      intro i s acts
      constructor
      · intro hfalse
        simp only [ensure_live_primary_go] at hfalse ⊢
        simpa using hfalse
      · intro heq
        simp only [ensure_live_primary_go] at heq ⊢
        simpa using heq
  | succ m ih =>
      intro i s acts
      simp only [ensure_live_primary_go]
      split
      · exact ⟨fun h => absurd h (by simp), fun _ => rfl⟩
      · split
        · exact ⟨fun h => absurd h (by simp), fun _ => rfl⟩
        · exact ih (i + 1) _ _

/-- C2 amended: `ensure_live_primary` returns `true` as soon as this replica
    is the primary or the currently designated primary answers the ping; it
    returns `false` only with the hop budget exhausted and this replica still
    not the primary.  What survives of the claimed equivalence: a `false`
    result implies the replica is not the primary of the returned state, and
    being the primary of the returned state forces a `true` result.  (The
    converse fails: a live remote primary also yields `true` — see the
    counterexample.) -/
theorem C2_ensure_live_primary_result (s : PBFTState) (pingOk : Nat → Bool)
    (mh : Option Nat) :
    ((ensure_live_primary s pingOk mh).2.1 = false →
      (ensure_live_primary s pingOk mh).1.primary_id ≠
        (ensure_live_primary s pingOk mh).1.node_id) ∧
    ((ensure_live_primary s pingOk mh).1.primary_id =
        (ensure_live_primary s pingOk mh).1.node_id →
      (ensure_live_primary s pingOk mh).2.1 = true) := by
  unfold ensure_live_primary
  exact ensure_live_primary_go_spec pingOk _ 0 s []

/-- Witness for the amended C2: node 3 (peers 1, 2, 4) with an unreachable
    primary and a single hop ends at view 1 with primary 2 ≠ 3 and result
    `false`; node 1 as primary gets result `true`. -/
theorem C2_ensure_live_primary_result_witness :
    ((ensure_live_primary ⟨3, [1, 2, 4], true, false, 0, 1, [], [], [], []⟩
        (fun _ => false) (some 1)).1.primary_id ≠
      (ensure_live_primary ⟨3, [1, 2, 4], true, false, 0, 1, [], [], [], []⟩
        (fun _ => false) (some 1)).1.node_id) ∧
    ((ensure_live_primary ⟨1, [2, 3, 4], true, false, 0, 1, [], [], [], []⟩
        (fun _ => false) none).2.1 = true) := by
  constructor
  · exact (C2_ensure_live_primary_result
      ⟨3, [1, 2, 4], true, false, 0, 1, [], [], [], []⟩ (fun _ => false) (some 1)).1
      (by decide)
  · exact (C2_ensure_live_primary_result
      ⟨1, [2, 3, 4], true, false, 0, 1, [], [], [], []⟩ (fun _ => false) none).2
      (by decide)

/-- Counterexample to C1 as stated: primary node 1 (peers 2, 3, 4, view 0)
    logs a client request and then receives PREPAREs from replicas 2 and 3.
    On the second PREPARE its entry reaches `quorum_prepare = 2`, and the
    primary — still the primary — multicasts a CommitRequest (here: to peer 2)
    and adds its own `node_id` 1 to its own entry's `commits` set, refuting
    both "never multicasts a CommitRequest" and "never adds its own node_id". -/
theorem C1_counterexample :
    ((runEvents ⟨1, [2, 3, 4], true, false, 0, 1, [], [], [], []⟩
        [.clientRequest ⟨"c", "r", 0, "p", false⟩ (fun _ => .wrongDigest),
         .prepare ⟨0, 1, digestOf ⟨"c", "r", 0, "p", false⟩, 2⟩]).node_id =
      (runEvents ⟨1, [2, 3, 4], true, false, 0, 1, [], [], [], []⟩
        [.clientRequest ⟨"c", "r", 0, "p", false⟩ (fun _ => .wrongDigest),
         .prepare ⟨0, 1, digestOf ⟨"c", "r", 0, "p", false⟩, 2⟩]).primary_id) ∧
    (Action.sendCommit 2 ⟨0, 1, digestOf ⟨"c", "r", 0, "p", false⟩, 1⟩ ∈
      (step (runEvents ⟨1, [2, 3, 4], true, false, 0, 1, [], [], [], []⟩
        [.clientRequest ⟨"c", "r", 0, "p", false⟩ (fun _ => .wrongDigest),
         .prepare ⟨0, 1, digestOf ⟨"c", "r", 0, "p", false⟩, 2⟩])
        (.prepare ⟨0, 1, digestOf ⟨"c", "r", 0, "p", false⟩, 3⟩)).2) ∧
    ((entryAt (step (runEvents ⟨1, [2, 3, 4], true, false, 0, 1, [], [], [], []⟩
        [.clientRequest ⟨"c", "r", 0, "p", false⟩ (fun _ => .wrongDigest),
         .prepare ⟨0, 1, digestOf ⟨"c", "r", 0, "p", false⟩, 2⟩])
        (.prepare ⟨0, 1, digestOf ⟨"c", "r", 0, "p", false⟩, 3⟩)).1
        (0, 1)).map PBFTEntry.commits = some {1}) := by
  refine ⟨by decide, by decide, by decide⟩

theorem on_commit_accept_mem (s : PBFTState) (req : CommitRequest) (e : PBFTEntry)
    (hal : s.alive = true) (hv : s.view ≤ req.view)
    (he : lookupA s.log (req.view, req.seq) = some e)
    (hex : e.executed = false) (hd : e.digest = req.digest) :
    ∃ e2, entryAt (on_commit s req).1 (req.view, req.seq) = some e2 ∧
      req.replica_id ∈ e2.commits := by
  simp only [on_commit]
  rw [with_guards_ok _ _ _ _ hal hv]
  simp only [on_commit_body, he]
  rw [if_neg (by rw [hex]; exact Bool.false_ne_true), if_neg (not_not_intro hd)]
  by_cases hb : (e.prepared && !e.committed &&
      decide ((insert req.replica_id e.commits).card ≥
        ({ s with view := req.view } : PBFTState).quorum_commit)) = true
  · rw [if_pos hb, if_pos hb]
    rcases executeEntry_forward
        { s with view := req.view, log := (insertA s.log (req.view, req.seq) { e with commits := insert req.replica_id e.commits, committed := true }) }
        (req.view, req.seq)
        { e with commits := insert req.replica_id e.commits, committed := true }
        (lookupA_insertA_self _ (req.view, req.seq) _) with ⟨e2, he2, _, hc2⟩
    exact ⟨e2, he2, hc2 (Finset.mem_insert_self _ _)⟩
  · rw [if_neg hb, if_neg hb]
    refine ⟨_, by rw [entryAt, lookupA_insertA_self], Finset.mem_insert_self _ _⟩

/-- C1 amended: `on_prepare` has no primary check, so on a primary replica
    whose entry reaches `quorum_prepare` PREPAREs the primary does multicast a
    CommitRequest to every peer and does count its own COMMIT locally, adding
    its own `node_id` to its own entry's `commits` set (the primary merely
    never sends PREPARE).  What survives of the claim: the `committed` flag is
    reached solely through `on_commit`, which requires at least
    `quorum_commit = 2f + 1` distinct IDs in the `commits` set — the primary's
    own self-counted COMMIT among them rather than peers only. -/
theorem C1_primary_commit_path (s : PBFTState) (req : PrepareRequest) (e : PBFTEntry)
    (_hprim : s.node_id = s.primary_id) (hbz : s.byzantine = false)
    (hal : s.alive = true) (hveq : req.view = s.view)
    (he : lookupA s.log (req.view, req.seq) = some e) (hex : e.executed = false)
    (hdig : e.digest = req.digest) (hnotp : e.prepared = false)
    (hq : s.quorum_prepare ≤ (insert req.replica_id e.prepares).card) :
    (∀ peer ∈ s.peers,
      Action.sendCommit peer ⟨req.view, req.seq, req.digest, s.node_id⟩ ∈
        (on_prepare s req).2.2) ∧
    (∃ e2, entryAt (on_prepare s req).1 (req.view, req.seq) = some e2 ∧
      s.node_id ∈ e2.commits) ∧
    (∀ (t : PBFTState) (creq : CommitRequest) (k : EntryKey) (e2 : PBFTEntry),
      entryAt (on_commit t creq).1 k = some e2 →
      (∀ e0, entryAt t k = some e0 → e0.committed = false) →
      e2.committed = true →
      e2.prepared = true ∧ t.quorum_commit ≤ e2.commits.card) := by
  have hb : (!e.prepared && decide ((insert req.replica_id e.prepares).card ≥
      ({ s with view := req.view } : PBFTState).quorum_prepare)) = true := by
    rw [hnotp]
    simpa using hq
  have hrw : on_prepare s req =
      ((on_commit { s with view := req.view, log := (insertA s.log (req.view, req.seq) { e with prepares := insert req.replica_id e.prepares, prepared := true }) } ⟨req.view, req.seq, maybe_corrupt_digest s.byzantine req.digest, s.node_id⟩).1,
       (⟨true, ""⟩ : Ack),
       s.peers.map (fun peer => Action.sendCommit peer
         ⟨req.view, req.seq, maybe_corrupt_digest s.byzantine req.digest, s.node_id⟩) ++
       (on_commit { s with view := req.view, log := (insertA s.log (req.view, req.seq) { e with prepares := insert req.replica_id e.prepares, prepared := true }) } ⟨req.view, req.seq, maybe_corrupt_digest s.byzantine req.digest, s.node_id⟩).2.2) := by
    simp only [on_prepare]
    rw [with_guards_ok _ _ _ _ hal (le_of_eq hveq.symm)]
    simp only [on_prepare_body, he]
    rw [if_neg (by rw [hex]; exact Bool.false_ne_true), if_neg (not_not_intro hdig)]
    rw [if_pos hb, if_pos hb]
  have hcd : maybe_corrupt_digest s.byzantine req.digest = req.digest := by
    rw [maybe_corrupt_digest, if_neg (by rw [hbz]; exact Bool.false_ne_true)]
  refine ⟨?_, ?_, ?_⟩
  · intro peer hpeer
    rw [hrw, hcd]
    exact List.mem_append_left _ (List.mem_map_of_mem _ hpeer)
  · rw [hrw]
    rcases on_commit_accept_mem
        { s with view := req.view, log := (insertA s.log (req.view, req.seq) { e with prepares := insert req.replica_id e.prepares, prepared := true }) }
        ⟨req.view, req.seq, maybe_corrupt_digest s.byzantine req.digest, s.node_id⟩
        { e with prepares := insert req.replica_id e.prepares, prepared := true }
        hal (Nat.le_refl _)
        (lookupA_insertA_self _ (req.view, req.seq) _)
        hex (by rw [hcd]; exact hdig) with ⟨e2, he2, hmem⟩
    exact ⟨e2, he2, hmem⟩
  · intro t creq k e2 h2 hprec hflip
    rcases on_commit_entry_evol t creq k e2 h2 with ⟨e0, he0, _, _, _, hg⟩ | ⟨_, hg⟩
    · rcases hg with h | h
      · rw [hflip, hprec e0 he0] at h
        exact absurd h (by simp)
      · exact ⟨h.2.1, h.2.2⟩
    · rcases hg with h | h
      · rw [hflip] at h
        exact absurd h (by simp)
      · exact ⟨h.2.1, h.2.2⟩

/-- Witness for the amended C1: primary 1 holding entry `(0, 1)` with prepares
    `{2}` processes the PREPARE from replica 3 that completes the quorum: the
    COMMIT to peer 2 is among the emitted actions, the primary's own ID lands
    in its entry's `commits` set, and a concrete COMMIT flip (node 2's entry
    gaining its third commit) exhibits the `2f + 1` threshold. -/
theorem C1_primary_commit_path_witness :
    (Action.sendCommit 2 ⟨0, 1, digestOf ⟨"c", "r", 0, "p", false⟩, 1⟩ ∈
      (on_prepare ⟨1, [2, 3, 4], true, false, 0, 2,
        [((0, 1), ⟨0, 1, digestOf ⟨"c", "r", 0, "p", false⟩, "c", "r", "p", {2}, ∅,
          false, false, false, none, none⟩)], [], [], []⟩
        ⟨0, 1, digestOf ⟨"c", "r", 0, "p", false⟩, 3⟩).2.2) ∧
    (∃ e2, entryAt (on_prepare ⟨1, [2, 3, 4], true, false, 0, 2,
        [((0, 1), ⟨0, 1, digestOf ⟨"c", "r", 0, "p", false⟩, "c", "r", "p", {2}, ∅,
          false, false, false, none, none⟩)], [], [], []⟩
        ⟨0, 1, digestOf ⟨"c", "r", 0, "p", false⟩, 3⟩).1 (0, 1) = some e2 ∧
      1 ∈ e2.commits) ∧
    (PBFTEntry.prepared ⟨0, 1, "d", "c", "r", "p", {2, 3}, {4, 1, 3}, true, true, true,
        some "p", some ""⟩ = true ∧
      PBFTState.quorum_commit ⟨2, [1, 3, 4], true, false, 0, 1,
        [((0, 1), ⟨0, 1, "d", "c", "r", "p", {2, 3}, {1, 3}, true, false, false,
          none, none⟩)], [], [], []⟩ ≤
      (PBFTEntry.commits ⟨0, 1, "d", "c", "r", "p", {2, 3}, {4, 1, 3}, true, true, true,
        some "p", some ""⟩).card) := by
  refine ⟨?_, ?_, ?_⟩
  · exact (C1_primary_commit_path ⟨1, [2, 3, 4], true, false, 0, 2,
      [((0, 1), ⟨0, 1, digestOf ⟨"c", "r", 0, "p", false⟩, "c", "r", "p", {2}, ∅,
        false, false, false, none, none⟩)], [], [], []⟩
      ⟨0, 1, digestOf ⟨"c", "r", 0, "p", false⟩, 3⟩
      ⟨0, 1, digestOf ⟨"c", "r", 0, "p", false⟩, "c", "r", "p", {2}, ∅,
        false, false, false, none, none⟩
      rfl rfl rfl rfl rfl rfl rfl rfl (by decide)).1 2 (by decide)
  · exact (C1_primary_commit_path ⟨1, [2, 3, 4], true, false, 0, 2,
      [((0, 1), ⟨0, 1, digestOf ⟨"c", "r", 0, "p", false⟩, "c", "r", "p", {2}, ∅,
        false, false, false, none, none⟩)], [], [], []⟩
      ⟨0, 1, digestOf ⟨"c", "r", 0, "p", false⟩, 3⟩
      ⟨0, 1, digestOf ⟨"c", "r", 0, "p", false⟩, "c", "r", "p", {2}, ∅,
        false, false, false, none, none⟩
      rfl rfl rfl rfl rfl rfl rfl rfl (by decide)).2.1
  · exact (C1_primary_commit_path ⟨1, [2, 3, 4], true, false, 0, 2,
      [((0, 1), ⟨0, 1, digestOf ⟨"c", "r", 0, "p", false⟩, "c", "r", "p", {2}, ∅,
        false, false, false, none, none⟩)], [], [], []⟩
      ⟨0, 1, digestOf ⟨"c", "r", 0, "p", false⟩, 3⟩
      ⟨0, 1, digestOf ⟨"c", "r", 0, "p", false⟩, "c", "r", "p", {2}, ∅,
        false, false, false, none, none⟩
      rfl rfl rfl rfl rfl rfl rfl rfl (by decide)).2.2
      ⟨2, [1, 3, 4], true, false, 0, 1,
        [((0, 1), ⟨0, 1, "d", "c", "r", "p", {2, 3}, {1, 3}, true, false, false,
          none, none⟩)], [], [], []⟩
      ⟨0, 1, "d", 4⟩ (0, 1)
      ⟨0, 1, "d", "c", "r", "p", {2, 3}, {4, 1, 3}, true, true, true, some "p", some ""⟩
      (by decide)
      (by intro e0 he0; injection he0 with h2; rw [← h2])
      rfl

end PBFT
